import Mathlib

/-
Verification of the oneshot and stream channel packets from
src/libstd/comm/oneshot.rs and src/libstd/comm/stream.rs.

The embedding is sequential and operation-atomic: every atomic word of the
source (the oneshot state word, the stream counter) becomes a plain field,
every operation becomes a pure function threading the packet state, and a
compare-and-swap observed by one operation always sees the value left by the
previous completed operation.  Fallible code paths (the fail! macro, assert!,
take_unwrap on None, unreachable!) are modelled by returning none.  A parked
task handle is modelled by its machine-word encoding, a natural number; the
encoding guarantee of the parking collaborator keeps oneshot handles at or
above 3 so that they never alias the EMPTY/DATA/DISCONNECTED sentinels.
-/

set_option autoImplicit false
set_option linter.unusedVariables false

namespace Chan

/-- An opaque, movable receiving-endpoint handle transported by value through
a packet during the upgrade protocol. -/
structure Port (T : Type) where
  id : Nat
deriving DecidableEq, Repr

namespace Oneshot

/-- State word sentinel: nothing sent yet, no blocker. -/
def EMPTY : Nat := 0

/-- State word sentinel: the data slot has been published. -/
def DATA : Nat := 1

/-- State word sentinel: terminal state. -/
def DISCONNECTED : Nat := 2

/-- The upgrade slot of a oneshot packet (enum MyUpgrade in the source). -/
inductive MyUpgrade (T : Type) where
  | NothingSent
  | SendUsed
  | GoUp (port : Port T)
deriving DecidableEq, Repr

/-- The oneshot packet: one state word (which may also hold the uint encoding
of a blocked task), a data slot, and an upgrade slot. -/
structure Packet (T : Type) where
  state : Nat
  data : Option T
  upgrade : MyUpgrade T
deriving DecidableEq, Repr

/-- Failure results surfaced by the receiving operations. -/
inductive Failure (T : Type) where
  | Empty
  | Disconnected
  | Upgraded (port : Port T)
deriving DecidableEq, Repr

/-- Result of Packet::upgrade.  Exactly as in the source: none of the three
constructors carries a Port. -/
inductive UpgradeResult (T : Type) where
  | UpSuccess
  | UpDisconnected
  | UpWoke (task : Nat)
deriving DecidableEq, Repr

/-- The Port payloads embedded in an UpgradeResult value, read off from the
declaration of the enum: no constructor stores one. -/
def upgradeResultPorts {T : Type} : UpgradeResult T → List (Port T)
  | .UpSuccess => []
  | .UpDisconnected => []
  | .UpWoke _ => []

/-- Side effects of an operation on the task-parking collaborator: which
handle was woken, which handle was trashed (destroyed without wake). -/
structure Effect where
  woken : Option Nat
  trashed : Option Nat
deriving DecidableEq, Repr

/-- No interaction with the parking collaborator. -/
def noEffect : Effect := ⟨none, none⟩

/-- Packet::new. -/
def Packet.new (T : Type) : Packet T :=
  { state := EMPTY, data := none, upgrade := MyUpgrade.NothingSent }

/-- Packet::send.  Checks the sanity conditions (fail! / assert! become
none), writes the data and the SendUsed mark, swaps the state word to DATA
and interprets the previous value. -/
def send {T : Type} (p : Packet T) (t : T) (can_resched : Bool) :
    Option (Bool × Packet T × Effect) :=
  match p.upgrade with
  | MyUpgrade.NothingSent =>
    if p.data.isSome then none
    else
      let p1 : Packet T :=
        { p with data := some t, upgrade := MyUpgrade.SendUsed }
      let prev := p1.state
      let p2 : Packet T := { p1 with state := DATA }
      if prev = EMPTY then some (true, p2, noEffect)
      else if prev = DISCONNECTED then
        match p2.data with
        | some _ => some (false, { p2 with data := none }, noEffect)
        | none => none
      else if prev = DATA then none
      else some (true, p2, { woken := some prev, trashed := none })
  | _ => none

/-- Packet::sent, the sender-side predicate on the upgrade slot. -/
def sent {T : Type} (p : Packet T) : Bool :=
  match p.upgrade with
  | MyUpgrade.NothingSent => false
  | _ => true

/-- Packet::try_recv.  The compare-and-swap DATA to EMPTY always succeeds in
the sequential model; a state word holding a blocked task is unreachable!
for the receiver and becomes none. -/
def try_recv {T : Type} (p : Packet T) :
    Option (Except (Failure T) T × Packet T) :=
  if p.state = EMPTY then some (Except.error Failure.Empty, p)
  else if p.state = DATA then
    let p1 : Packet T := { p with state := EMPTY }
    match p1.data with
    | some d => some (Except.ok d, { p1 with data := none })
    | none => none
  else if p.state = DISCONNECTED then
    match p.data with
    | some d => some (Except.ok d, { p with data := none })
    | none =>
      match p.upgrade with
      | MyUpgrade.GoUp up =>
        some (Except.error (Failure.Upgraded up),
              { p with upgrade := MyUpgrade.SendUsed })
      | _ =>
        some (Except.error Failure.Disconnected,
              { p with upgrade := MyUpgrade.SendUsed })
  else none

/-- Outcome of the front half of Packet::recv: either the caller parked
(depositing its handle into the state word) or it returned a result. -/
inductive RecvOutcome (T : Type) where
  | parked (p : Packet T) (handle : Nat)
  | ret (r : Except (Failure T) T) (p : Packet T)
deriving Repr

/-- Packet::recv up to the suspension point.  If the state word is EMPTY the
compare-and-swap EMPTY to handle succeeds sequentially and the caller parks;
otherwise it proceeds straight to try_recv.  After a wake the source runs
try_recv again, which the step semantics below models as a resume step. -/
def recvStep {T : Type} (p : Packet T) (handle : Nat) :
    Option (RecvOutcome T) :=
  if p.state = EMPTY then
    some (RecvOutcome.parked { p with state := handle } handle)
  else
    (try_recv p).map (fun rp => RecvOutcome.ret rp.1 rp.2)

/-- Packet::upgrade.  Stores GoUp(up), swaps the state word to DISCONNECTED
and interprets the previous value; on a prior DISCONNECTED the upgrade slot
is restored to its previous value (dropping the stored port in place). -/
def upgrade {T : Type} (p : Packet T) (up : Port T) :
    Option (UpgradeResult T × Packet T) :=
  match p.upgrade with
  | MyUpgrade.GoUp _ => none
  | prev =>
    let prior := p.state
    let p1 : Packet T :=
      { p with upgrade := MyUpgrade.GoUp up, state := DISCONNECTED }
    if prior = DATA ∨ prior = EMPTY then some (UpgradeResult.UpSuccess, p1)
    else if prior = DISCONNECTED then
      some (UpgradeResult.UpDisconnected, { p1 with upgrade := prev })
    else some (UpgradeResult.UpWoke prior, p1)

/-- Packet::drop_chan.  Swap to DISCONNECTED; wake a parked task if one was
stored in the word. -/
def drop_chan {T : Type} (p : Packet T) : Packet T × Effect :=
  let prior := p.state
  let p1 : Packet T := { p with state := DISCONNECTED }
  if prior = DATA ∨ prior = DISCONNECTED ∨ prior = EMPTY then (p1, noEffect)
  else (p1, { woken := some prior, trashed := none })

/-- Packet::drop_port.  Swap to DISCONNECTED; drain the data slot if the
prior state was DATA; a prior blocked task is unreachable!. -/
def drop_port {T : Type} (p : Packet T) : Option (Packet T) :=
  let prior := p.state
  let p1 : Packet T := { p with state := DISCONNECTED }
  if prior = DISCONNECTED ∨ prior = EMPTY then some p1
  else if prior = DATA then
    match p1.data with
    | some _ => some { p1 with data := none }
    | none => none
  else none

/-- Packet::can_recv, the non-destructive poll of the selection support.
In the DISCONNECTED-no-data case the source replaces the upgrade slot with
SendUsed and restores it unless it held a pending upgrade. -/
def can_recv {T : Type} (p : Packet T) :
    Option (Except (Port T) Bool × Packet T) :=
  if p.state = EMPTY then some (Except.ok false, p)
  else if p.state = DATA then some (Except.ok true, p)
  else if p.state = DISCONNECTED then
    if p.data.isSome then some (Except.ok true, p)
    else
      match p.upgrade with
      | MyUpgrade.GoUp up =>
        some (Except.error up, { p with upgrade := MyUpgrade.SendUsed })
      | u =>
        some (Except.ok true,
              { (({ p with upgrade := MyUpgrade.SendUsed } : Packet T)) with
                upgrade := u })
  else none

/-- Packet::abort_selection.  The compare-and-swap of the deposited handle
back to EMPTY always succeeds sequentially; a load of EMPTY is
unreachable!. -/
def abort_selection {T : Type} (p : Packet T) :
    Option (Bool × Packet T × Effect) :=
  if p.state = EMPTY then none
  else if p.state = DATA ∨ p.state = DISCONNECTED then some (true, p, noEffect)
  else
    some (false, { p with state := EMPTY },
          { woken := none, trashed := some p.state })

end Oneshot

namespace Strm

/-
Embedding of src/libstd/comm/stream.rs.  The namespace is called Strm only
because the name Stream is taken by the core library; every definition in it
keeps its source name.  The SPSC queue is a FIFO list: push appends at the
back, pop takes from the front.
-/

/-- static DISCONNECTED: int = int::min_value (64-bit). -/
def DISCONNECTED : Int := -(2 ^ 63)

/-- Failure results surfaced by the receiving operations. -/
inductive Failure (T : Type) where
  | Empty
  | Disconnected
  | Upgraded (port : Port T)
deriving DecidableEq, Repr

/-- enum Message: the queue carries data or an upgrade request. -/
inductive Message (T : Type) where
  | Data (t : T)
  | GoUp (port : Port T)
deriving DecidableEq, Repr

/-- The stream packet: queue, counter, receiver-private steal counter,
to-wake slot and shutdown flag (go_home). -/
structure Packet (T : Type) where
  queue : List (Message T)
  cnt : Int
  steals : Int
  to_wake : Option Nat
  go_home : Bool
deriving DecidableEq, Repr

/-- Side effect of an operation on the parking collaborator. -/
structure Effect where
  woken : Option Nat
deriving DecidableEq, Repr

/-- No wake performed. -/
def noEffect : Effect := ⟨none⟩

/-- Packet::new (the queue capacity of 128 is irrelevant to a list model). -/
def Packet.new (T : Type) : Packet T :=
  { queue := [], cnt := 0, steals := 0, to_wake := none, go_home := false }

/-- Queue::pop on the front of the FIFO list. -/
def pop {T : Type} (p : Packet T) : Option (Message T) × Packet T :=
  match p.queue with
  | [] => (none, p)
  | m :: rest => (some m, { p with queue := rest })

/-- Packet::do_send: gate on go_home, push, fetch_add 1 and interpret the
previous counter value.  The assert! on the second pop and the assert!
n >= 0 become none. -/
def do_send {T : Type} (p : Packet T) (t : Message T) :
    Option (Bool × Packet T × Effect) :=
  if p.go_home then some (false, p, noEffect)
  else
    let p1 : Packet T := { p with queue := p.queue ++ [t] }
    let prev := p1.cnt
    let p2 : Packet T := { p1 with cnt := p1.cnt + 1 }
    if prev = -1 then
      match p2.to_wake with
      | some h => some (true, { p2 with to_wake := none }, ⟨some h⟩)
      | none => none
    else if prev = -2 then some (true, p2, noEffect)
    else if prev = DISCONNECTED then
      let p3 : Packet T := { p2 with cnt := DISCONNECTED }
      let first := (pop p3).1
      let p4 := (pop p3).2
      let second := (pop p4).1
      let p5 := (pop p4).2
      if second.isSome then none
      else
        match first with
        | some _ => some (false, p5, noEffect)
        | none => some (true, p5, noEffect)
    else if 0 ≤ prev then some (true, p2, noEffect)
    else none

/-- Packet::send. -/
def send {T : Type} (p : Packet T) (t : T) : Option (Bool × Packet T × Effect) :=
  do_send p (Message.Data t)

/-- Packet::upgrade. -/
def upgrade {T : Type} (p : Packet T) (up : Port T) :
    Option (Bool × Packet T × Effect) :=
  do_send p (Message.GoUp up)

/-- Packet::try_recv: pop; on success record a steal; on an empty queue load
the counter, and when it reads DISCONNECTED pop once more to defeat the
in-flight-data race. -/
def try_recv {T : Type} (p : Packet T) : Except (Failure T) T × Packet T :=
  match pop p with
  | (some msg, p1) =>
    let p2 : Packet T := { p1 with steals := p1.steals + 1 }
    match msg with
    | Message.Data t => (Except.ok t, p2)
    | Message.GoUp up => (Except.error (Failure.Upgraded up), p2)
  | (none, p1) =>
    if p1.cnt ≠ DISCONNECTED then (Except.error Failure.Empty, p1)
    else
      match pop p1 with
      | (some (Message.Data t), p2) => (Except.ok t, p2)
      | (some (Message.GoUp up), p2) =>
        (Except.error (Failure.Upgraded up), p2)
      | (none, p2) => (Except.error Failure.Disconnected, p2)

/-- The tail of Packet::recv, run after the deschedule attempt returned
(cancelled park) or after a wake: try_recv again, and a result that was
popped from the queue compensates the steal counter by one. -/
def recvCancelFinish {T : Type} (p : Packet T) : Except (Failure T) T × Packet T :=
  match try_recv p with
  | (Except.ok t, q) => (Except.ok t, { q with steals := q.steals - 1 })
  | (Except.error (Failure.Upgraded up), q) =>
    (Except.error (Failure.Upgraded up), { q with steals := q.steals - 1 })
  | (r, q) => (r, q)

/-- Outcome of the front half of Packet::recv: either the receiver parked
with its handle in the to-wake slot, or it returned a result. -/
inductive RecvOutcome (T : Type) where
  | parked (p : Packet T)
  | ret (r : Except (Failure T) T) (p : Packet T)
deriving Repr

/-- Packet::recv up to the suspension point: preflight try_recv; on Empty,
deposit the handle (assert! to_wake was empty), fold the steals into the
counter with fetch_sub(1 + steals), and interpret the previous value.  On
either non-parking branch the handle is reclaimed and try_recv runs again
via recvCancelFinish. -/
def recvStep {T : Type} (p : Packet T) (handle : Nat) :
    Option (RecvOutcome T) :=
  match try_recv p with
  | (Except.error Failure.Empty, p1) =>
    if p1.to_wake.isSome then none
    else
      let stealsCaptured := p1.steals
      let p2 : Packet T := { p1 with to_wake := some handle, steals := 0 }
      let prev := p2.cnt
      let p3 : Packet T := { p2 with cnt := p2.cnt - (1 + stealsCaptured) }
      if prev = DISCONNECTED then
        let p4 : Packet T := { p3 with cnt := DISCONNECTED, to_wake := none }
        some (RecvOutcome.ret (recvCancelFinish p4).1 (recvCancelFinish p4).2)
      else if prev - stealsCaptured ≤ 0 then
        some (RecvOutcome.parked p3)
      else
        let p4 : Packet T := { p3 with to_wake := none }
        some (RecvOutcome.ret (recvCancelFinish p4).1 (recvCancelFinish p4).2)
  | (r, p1) => some (RecvOutcome.ret r p1)

/-- Packet::drop_chan: swap the counter to DISCONNECTED, wake the parked
receiver if the previous value was -1, otherwise assert! n >= 0. -/
def drop_chan {T : Type} (p : Packet T) : Option (Packet T × Effect) :=
  let prev := p.cnt
  let p1 : Packet T := { p with cnt := DISCONNECTED }
  if prev = -1 then
    match p1.to_wake with
    | some h => some ({ p1 with to_wake := none }, ⟨some h⟩)
    | none => none
  else if prev = DISCONNECTED then some (p1, noEffect)
  else if 0 ≤ prev then some (p1, noEffect)
  else none

/-- The compare-and-swap loop of Packet::drop_port: try to swap the counter
from the local steal count to DISCONNECTED; on failure drain the queue into
the local steal count and retry.  The loop is bounded in the source because
go_home gates new sends; the fuel argument makes that bound explicit, and
none (fuel exhausted) is unreachable from reachable states. -/
def drop_port_loop {T : Type} : Nat → Int → Packet T → Option (Packet T)
  | 0, _, _ => none
  | fuel + 1, steals, p =>
    if p.cnt = DISCONNECTED then some p
    else if p.cnt = steals then some { p with cnt := DISCONNECTED }
    else
      drop_port_loop fuel (steals + p.queue.length) { p with queue := [] }

/-- Packet::drop_port: set go_home, then run the drain loop. -/
def drop_port {T : Type} (p : Packet T) : Option (Packet T) :=
  let p1 : Packet T := { p with go_home := true }
  drop_port_loop (p1.queue.length + 2) p1.steals p1

end Strm

/-
Operation-atomic interleaving semantics.  A configuration couples the packet
with the receiver's scheduling status and two ghost flags recording that an
endpoint ran its drop method.  Sender operations (send, upgrade, drop_chan)
are available until the sender drops; receiver operations (try_recv, recv,
can_recv, drop_port) until the receiver drops, and only while the receiver
is not parked inside recv.  Waking moves the receiver to a resuming status
from which its only step is the post-wake try_recv of recv's tail.  A step
that the source would abort on (fail!, assert!, unreachable!) produces none
and is not a transition.
-/

/-- Scheduling status of the receiving task. -/
inductive RStatus where
  | idle
  | parked (handle : Nat)
  | resuming
deriving DecidableEq, Repr

/-- The receiver status after the sender interprets an upgrade result: an
UpWoke result means the caller wakes the parked receiver externally. -/
def upWokeStatus {T : Type} (res : Oneshot.UpgradeResult T) (r : RStatus) :
    RStatus :=
  match res with
  | Oneshot.UpgradeResult.UpWoke _ => RStatus.resuming
  | _ => r

/-- Configuration of a oneshot packet and its two endpoints. -/
structure OConf (T : Type) where
  pkt : Oneshot.Packet T
  rstat : RStatus
  chanDropped : Bool
  portDropped : Bool
deriving DecidableEq, Repr

/-- Operations of the oneshot protocol. -/
inductive OOp (T : Type) where
  | sendOp (t : T) (can_resched : Bool)
  | upgradeOp (up : Port T)
  | dropChan
  | tryRecvOp
  | recvStart (handle : Nat)
  | recvResume
  | canRecvOp
  | dropPort
deriving DecidableEq, Repr

/-- Observable outputs of a oneshot step. -/
structure OOut (T : Type) where
  sentRes : Option Bool
  recvd : Option (Except (Oneshot.Failure T) T)
deriving Repr

/-- A step with no observable output. -/
def noOOut (T : Type) : OOut T := ⟨none, none⟩

/-- One interleaved step of the oneshot protocol. -/
def ostep {T : Type} (c : OConf T) (op : OOp T) : Option (OConf T × OOut T) :=
  match op with
  | OOp.sendOp t r =>
    if c.chanDropped then none
    else
      match Oneshot.send c.pkt t r with
      | none => none
      | some (b, p, eff) =>
        some ({ c with pkt := p,
                       rstat := if eff.woken.isSome then RStatus.resuming
                                else c.rstat },
              { sentRes := some b, recvd := none })
  | OOp.upgradeOp up =>
    if c.chanDropped then none
    else
      match Oneshot.upgrade c.pkt up with
      | none => none
      | some (res, p) =>
        some ({ c with pkt := p, rstat := upWokeStatus res c.rstat },
              noOOut T)
  | OOp.dropChan =>
    if c.chanDropped then none
    else
      match Oneshot.drop_chan c.pkt with
      | (p, eff) =>
        some ({ c with pkt := p, chanDropped := true,
                       rstat := if eff.woken.isSome then RStatus.resuming
                                else c.rstat },
              noOOut T)
  | OOp.tryRecvOp =>
    if c.portDropped then none
    else
      match c.rstat with
      | RStatus.idle =>
        match Oneshot.try_recv c.pkt with
        | none => none
        | some (r, p) =>
          some ({ c with pkt := p }, { sentRes := none, recvd := some r })
      | _ => none
  | OOp.recvStart h =>
    if c.portDropped then none
    else if h < 3 then none
    else
      match c.rstat with
      | RStatus.idle =>
        match Oneshot.recvStep c.pkt h with
        | none => none
        | some (Oneshot.RecvOutcome.parked p hh) =>
          some ({ c with pkt := p, rstat := RStatus.parked hh }, noOOut T)
        | some (Oneshot.RecvOutcome.ret r p) =>
          some ({ c with pkt := p }, { sentRes := none, recvd := some r })
      | _ => none
  | OOp.recvResume =>
    match c.rstat with
    | RStatus.resuming =>
      match Oneshot.try_recv c.pkt with
      | none => none
      | some (r, p) =>
        some ({ c with pkt := p, rstat := RStatus.idle },
              { sentRes := none, recvd := some r })
    | _ => none
  | OOp.canRecvOp =>
    if c.portDropped then none
    else
      match c.rstat with
      | RStatus.idle =>
        match Oneshot.can_recv c.pkt with
        | none => none
        | some (_, p) => some ({ c with pkt := p }, noOOut T)
      | _ => none
  | OOp.dropPort =>
    if c.portDropped then none
    else
      match c.rstat with
      | RStatus.idle =>
        match Oneshot.drop_port c.pkt with
        | none => none
        | some p =>
          some ({ c with pkt := p, portDropped := true }, noOOut T)
      | _ => none

/-- Initial configuration: fresh oneshot packet, both endpoints live. -/
def oInit (T : Type) : OConf T :=
  { pkt := Oneshot.Packet.new T, rstat := RStatus.idle,
    chanDropped := false, portDropped := false }

/-- Configurations reachable by interleaved oneshot steps. -/
inductive OReach (T : Type) : OConf T → Prop where
  | init : OReach T (oInit T)
  | step {c c' : OConf T} {op : OOp T} {out : OOut T} :
      OReach T c → ostep c op = some (c', out) → OReach T c'

/-- Run a list of oneshot operations, failing if any step faults. -/
def oRun {T : Type} : List (OOp T) → OConf T → Option (OConf T)
  | [], c => some c
  | op :: ops, c =>
    match ostep c op with
    | some (c', _) => oRun ops c'
    | none => none

/-- Configuration of a stream packet and its two endpoints. -/
structure SConf (T : Type) where
  pkt : Strm.Packet T
  rstat : RStatus
  chanDropped : Bool
  portDropped : Bool
deriving DecidableEq, Repr

/-- Operations of the stream protocol. -/
inductive SOp (T : Type) where
  | sendOp (t : T)
  | upgradeOp (up : Port T)
  | dropChan
  | tryRecvOp
  | recvStart (handle : Nat)
  | recvResume
  | dropPort
deriving DecidableEq, Repr

/-- Observable outputs of a stream step. -/
structure SOut (T : Type) where
  sentRes : Option Bool
  recvd : Option (Except (Strm.Failure T) T)
deriving Repr

/-- A step with no observable output. -/
def noSOut (T : Type) : SOut T := ⟨none, none⟩

/-- One interleaved step of the stream protocol. -/
def sstep {T : Type} (c : SConf T) (op : SOp T) : Option (SConf T × SOut T) :=
  match op with
  | SOp.sendOp t =>
    if c.chanDropped then none
    else
      match Strm.send c.pkt t with
      | none => none
      | some (b, p, eff) =>
        some ({ c with pkt := p,
                       rstat := if eff.woken.isSome then RStatus.resuming
                                else c.rstat },
              { sentRes := some b, recvd := none })
  | SOp.upgradeOp up =>
    if c.chanDropped then none
    else
      match Strm.upgrade c.pkt up with
      | none => none
      | some (b, p, eff) =>
        some ({ c with pkt := p,
                       rstat := if eff.woken.isSome then RStatus.resuming
                                else c.rstat },
              { sentRes := some b, recvd := none })
  | SOp.dropChan =>
    if c.chanDropped then none
    else
      match Strm.drop_chan c.pkt with
      | none => none
      | some (p, eff) =>
        some ({ c with pkt := p, chanDropped := true,
                       rstat := if eff.woken.isSome then RStatus.resuming
                                else c.rstat },
              noSOut T)
  | SOp.tryRecvOp =>
    if c.portDropped then none
    else
      match c.rstat with
      | RStatus.idle =>
        match Strm.try_recv c.pkt with
        | (r, p) =>
          some ({ c with pkt := p }, { sentRes := none, recvd := some r })
      | _ => none
  | SOp.recvStart h =>
    if c.portDropped then none
    else
      match c.rstat with
      | RStatus.idle =>
        match Strm.recvStep c.pkt h with
        | none => none
        | some (Strm.RecvOutcome.parked p) =>
          some ({ c with pkt := p, rstat := RStatus.parked h }, noSOut T)
        | some (Strm.RecvOutcome.ret r p) =>
          some ({ c with pkt := p }, { sentRes := none, recvd := some r })
      | _ => none
  | SOp.recvResume =>
    match c.rstat with
    | RStatus.resuming =>
      match Strm.recvCancelFinish c.pkt with
      | (r, p) =>
        some ({ c with pkt := p, rstat := RStatus.idle },
              { sentRes := none, recvd := some r })
    | _ => none
  | SOp.dropPort =>
    if c.portDropped then none
    else
      match c.rstat with
      | RStatus.idle =>
        match Strm.drop_port c.pkt with
        | none => none
        | some p =>
          some ({ c with pkt := p, portDropped := true }, noSOut T)
      | _ => none

/-- Initial configuration: fresh stream packet, both endpoints live. -/
def sInit (T : Type) : SConf T :=
  { pkt := Strm.Packet.new T, rstat := RStatus.idle,
    chanDropped := false, portDropped := false }

/-- Configurations reachable by interleaved stream steps. -/
inductive SReach (T : Type) : SConf T → Prop where
  | init : SReach T (sInit T)
  | step {c c' : SConf T} {op : SOp T} {out : SOut T} :
      SReach T c → sstep c op = some (c', out) → SReach T c'

/-- Run a list of stream operations, failing if any step faults. -/
def sRun {T : Type} : List (SOp T) → SConf T → Option (SConf T)
  | [], c => some c
  | op :: ops, c =>
    match sstep c op with
    | some (c', _) => sRun ops c'
    | none => none

/-
Concrete configurations used by counterexamples and witnesses.
-/

/-- Oneshot packet after a completed send then an upgrade that lost the race
with the receiver: both endpoints inspected it as DISCONNECTED. -/
def pC2 : Oneshot.Packet Nat :=
  { state := Oneshot.DISCONNECTED, data := none,
    upgrade := Oneshot.MyUpgrade.SendUsed }

/-- Oneshot packet whose sender upgraded away without sending data. -/
def pC7 : Oneshot.Packet Nat :=
  { state := Oneshot.DISCONNECTED, data := none,
    upgrade := Oneshot.MyUpgrade.GoUp ⟨5⟩ }

/-- Fresh oneshot packet that was never sent on, seen disconnected. -/
def pC10 : Oneshot.Packet Nat :=
  { state := Oneshot.DISCONNECTED, data := none,
    upgrade := Oneshot.MyUpgrade.NothingSent }

/-- Oneshot packet holding a deposited selection handle. -/
def pC8 : Oneshot.Packet Nat :=
  { state := 7, data := none, upgrade := Oneshot.MyUpgrade.NothingSent }

/-- Stream packet with an empty queue whose counter reads one above the
folded-in steals: the state a receiver sees when a sender completed a
fetch-add between the receiver's failed pop and its parking subtract. -/
def pC1 : Strm.Packet Nat :=
  { queue := [], cnt := 1, steals := 0, to_wake := none, go_home := false }

/-- Disconnected stream packet still holding one orphaned message. -/
def pC6 : Strm.Packet Nat :=
  { queue := [Strm.Message.Data 7], cnt := Strm.DISCONNECTED, steals := 0,
    to_wake := none, go_home := false }

/-- Stream configuration reached from the initial one by a single send. -/
def sConf1 : SConf Nat :=
  { pkt := { queue := [Strm.Message.Data 5], cnt := 1, steals := 0,
             to_wake := none, go_home := false },
    rstat := RStatus.idle, chanDropped := false, portDropped := false }

/-- Stream configuration reached from the initial one by drop_port. -/
def sConfD : SConf Nat :=
  { pkt := { queue := [], cnt := Strm.DISCONNECTED, steals := 0,
             to_wake := none, go_home := true },
    rstat := RStatus.idle, chanDropped := false, portDropped := true }

/-- Oneshot configuration reached from the initial one by drop_port. -/
def oConfD : OConf Nat :=
  { pkt := { state := Oneshot.DISCONNECTED, data := none,
             upgrade := Oneshot.MyUpgrade.NothingSent },
    rstat := RStatus.idle, chanDropped := false, portDropped := true }

/-- Invariant of reachable oneshot configurations: after a drop the state
word is DISCONNECTED, except that a send after the port's drop leaves the
word at DATA with the value reclaimed; DATA implies the upgrade slot was
used; a dropped port leaves the receiver idle; and a woken receiver never
resumes onto an EMPTY word. -/
def OInv {T : Type} (c : OConf T) : Prop :=
  ((c.chanDropped = true ∨ c.portDropped = true) →
    (c.pkt.state = Oneshot.DISCONNECTED ∨
     (c.pkt.state = Oneshot.DATA ∧ c.pkt.data = none ∧
      c.portDropped = true))) ∧
  (c.pkt.state = Oneshot.DATA →
    c.pkt.upgrade ≠ Oneshot.MyUpgrade.NothingSent) ∧
  (c.portDropped = true → c.rstat = RStatus.idle) ∧
  (c.rstat = RStatus.resuming → c.pkt.state ≠ Oneshot.EMPTY)

/-- Invariant of reachable stream configurations: the ghost drop flags
coincide with a DISCONNECTED counter and the go_home flag; steals never go
negative; and the counter, queue length, steals, to-wake slot and receiver
status cohere (idle: counter counts queue plus steals; parked: counter is
exactly -1 with the handle deposited; resuming: one queued message is
already accounted for). -/
def SInv {T : Type} (c : SConf T) : Prop :=
  ((c.chanDropped = true ∨ c.portDropped = true) →
    c.pkt.cnt = Strm.DISCONNECTED) ∧
  (c.pkt.cnt = Strm.DISCONNECTED →
    (c.chanDropped = true ∨ c.portDropped = true)) ∧
  (c.portDropped = true → c.pkt.go_home = true) ∧
  (c.pkt.go_home = true → c.portDropped = true) ∧
  (c.portDropped = true → c.rstat = RStatus.idle) ∧
  0 ≤ c.pkt.steals ∧
  (match c.rstat with
   | RStatus.idle =>
     c.pkt.to_wake = none ∧
     (c.pkt.cnt = Strm.DISCONNECTED ∨
      c.pkt.cnt = c.pkt.queue.length + c.pkt.steals)
   | RStatus.parked h =>
     c.pkt.to_wake = some h ∧ c.pkt.cnt = -1 ∧
     c.pkt.queue = [] ∧ c.pkt.steals = 0
   | RStatus.resuming =>
     c.pkt.to_wake = none ∧
     (c.pkt.cnt = Strm.DISCONNECTED ∨
      (c.pkt.cnt = c.pkt.queue.length + c.pkt.steals - 1 ∧
       1 ≤ c.pkt.queue.length)))

end Chan

namespace Chan

/-
Claim theorems.
-/

/-- C2 counterexample: upgrading the packet pC2 (state word DISCONNECTED)
returns UpDisconnected and restores the upgrade slot, but the carried port
(id 5) is returned nowhere: the UpgradeResult type carries no Port in any
constructor and the final packet's upgrade slot is back to SendUsed, so the
port is dropped in place rather than returned to the caller through the
result. -/
theorem C2_counterexample :
    Oneshot.upgrade pC2 ⟨5⟩ =
      some (Oneshot.UpgradeResult.UpDisconnected, pC2) ∧
    Oneshot.upgradeResultPorts
      (Oneshot.UpgradeResult.UpDisconnected : Oneshot.UpgradeResult Nat) = [] ∧
    pC2.upgrade = Oneshot.MyUpgrade.SendUsed := by
  refine ⟨rfl, rfl, rfl⟩

/-- C2 (amended): upgrade(new_port) called when the prior state word is
DISCONNECTED returns UpDisconnected and restores the upgrade slot to its
prior value; the carried port is dropped in place by that restore — it is
not returned to the caller through the result (no UpgradeResult constructor
carries a port). -/
theorem C2_upgrade_disconnected {T : Type} (p : Oneshot.Packet T) (up : Port T)
    (hs : p.state = Oneshot.DISCONNECTED)
    (hu : p.upgrade = Oneshot.MyUpgrade.NothingSent ∨
          p.upgrade = Oneshot.MyUpgrade.SendUsed) :
    Oneshot.upgrade p up = some (Oneshot.UpgradeResult.UpDisconnected, p) ∧
    ∀ r q, Oneshot.upgrade p up = some (r, q) →
      Oneshot.upgradeResultPorts r = [] ∧ q.upgrade ≠ Oneshot.MyUpgrade.GoUp up := by
  obtain ⟨s, d, u⟩ := p
  simp only [Oneshot.Packet.state] at hs
  simp only [Oneshot.Packet.upgrade] at hu
  subst hs
  have hmain : Oneshot.upgrade
      ({ state := Oneshot.DISCONNECTED, data := d, upgrade := u } :
        Oneshot.Packet T) up =
      some (Oneshot.UpgradeResult.UpDisconnected,
            { state := Oneshot.DISCONNECTED, data := d, upgrade := u }) := by
    rcases hu with hu | hu <;> subst hu <;>
      simp [Oneshot.upgrade, Oneshot.DATA, Oneshot.EMPTY, Oneshot.DISCONNECTED]
  refine ⟨hmain, ?_⟩
  intro r q hq
  rw [hmain] at hq
  injection hq with hq
  injection hq with hr hq
  subst hr
  subst hq
  refine ⟨rfl, ?_⟩
  simp only [Oneshot.Packet.upgrade]
  rcases hu with hu | hu <;> subst hu <;> simp

/-- C2 witness: the amended theorem applied at the concrete packet pC2. -/
theorem C2_witness :
    pC2.state = Oneshot.DISCONNECTED ∧
    pC2.upgrade = Oneshot.MyUpgrade.SendUsed ∧
    Oneshot.upgrade pC2 ⟨5⟩ =
      some (Oneshot.UpgradeResult.UpDisconnected, pC2) :=
  ⟨rfl, rfl, (C2_upgrade_disconnected pC2 ⟨5⟩ rfl (Or.inr rfl)).1⟩

/-- C3: upgrade transparency of the oneshot packet.  With the state word
DISCONNECTED and data still in the slot, try_recv returns the data; on the
resulting packet (data drained, upgrade still pending) the next try_recv
returns Upgraded(port) and consumes the upgrade slot; and with neither data
nor a pending upgrade try_recv returns Disconnected. -/
theorem C3_upgrade_transparency {T : Type} (p : Oneshot.Packet T) (v : T)
    (port : Port T) (hs : p.state = Oneshot.DISCONNECTED) :
    (p.data = some v → p.upgrade = Oneshot.MyUpgrade.GoUp port →
      Oneshot.try_recv p = some (Except.ok v, { p with data := none }) ∧
      Oneshot.try_recv { p with data := none } =
        some (Except.error (Oneshot.Failure.Upgraded port),
              { p with data := none, upgrade := Oneshot.MyUpgrade.SendUsed })) ∧
    (p.data = none →
      (p.upgrade = Oneshot.MyUpgrade.SendUsed ∨
       p.upgrade = Oneshot.MyUpgrade.NothingSent) →
      Oneshot.try_recv p =
        some (Except.error Oneshot.Failure.Disconnected,
              { p with upgrade := Oneshot.MyUpgrade.SendUsed })) := by
  obtain ⟨s, d, u⟩ := p
  simp only [Oneshot.Packet.state] at hs
  subst hs
  constructor
  · intro hd hu
    simp only [Oneshot.Packet.data] at hd
    simp only [Oneshot.Packet.upgrade] at hu
    subst hd; subst hu
    constructor <;>
      simp [Oneshot.try_recv, Oneshot.DATA, Oneshot.EMPTY, Oneshot.DISCONNECTED]
  · intro hd hu
    simp only [Oneshot.Packet.data] at hd
    simp only [Oneshot.Packet.upgrade] at hu
    subst hd
    rcases hu with hu | hu <;> subst hu <;>
      simp [Oneshot.try_recv, Oneshot.DATA, Oneshot.EMPTY, Oneshot.DISCONNECTED]

/-- C3 witness: the theorem applied to a packet that was sent on (value 9)
and then upgraded, and to the drained disconnected packet. -/
theorem C3_witness :
    Oneshot.try_recv
      ({ state := Oneshot.DISCONNECTED, data := some 9,
         upgrade := Oneshot.MyUpgrade.GoUp ⟨5⟩ } : Oneshot.Packet Nat) =
      some (Except.ok 9,
            { state := Oneshot.DISCONNECTED, data := none,
              upgrade := Oneshot.MyUpgrade.GoUp ⟨5⟩ }) ∧
    Oneshot.try_recv
      ({ state := Oneshot.DISCONNECTED, data := none,
         upgrade := Oneshot.MyUpgrade.GoUp ⟨5⟩ } : Oneshot.Packet Nat) =
      some (Except.error (Oneshot.Failure.Upgraded ⟨5⟩),
            { state := Oneshot.DISCONNECTED, data := none,
              upgrade := Oneshot.MyUpgrade.SendUsed }) ∧
    Oneshot.try_recv pC10 =
      some (Except.error Oneshot.Failure.Disconnected,
            { pC10 with upgrade := Oneshot.MyUpgrade.SendUsed }) := by
  refine ⟨?_, ?_, ?_⟩
  · exact ((C3_upgrade_transparency
      ({ state := Oneshot.DISCONNECTED, data := some 9,
         upgrade := Oneshot.MyUpgrade.GoUp ⟨5⟩ } : Oneshot.Packet Nat)
      9 ⟨5⟩ rfl).1 rfl rfl).1
  · exact ((C3_upgrade_transparency
      ({ state := Oneshot.DISCONNECTED, data := some 9,
         upgrade := Oneshot.MyUpgrade.GoUp ⟨5⟩ } : Oneshot.Packet Nat)
      9 ⟨5⟩ rfl).1 rfl rfl).2
  · exact (C3_upgrade_transparency pC10 0 ⟨5⟩ rfl).2 rfl (Or.inr rfl)

/-- C7 counterexample: on the packet pC7 (DISCONNECTED with a pending
upgrade), can_recv returns Err(port) as the claim says, but it does not
leave the upgrade slot unchanged: the slot is consumed, going from
GoUp(port) to SendUsed. -/
theorem C7_counterexample :
    Oneshot.can_recv pC7 =
      some (Except.error ⟨5⟩,
            { pC7 with upgrade := Oneshot.MyUpgrade.SendUsed }) ∧
    ({ pC7 with upgrade := Oneshot.MyUpgrade.SendUsed } :
        Oneshot.Packet Nat).upgrade ≠ pC7.upgrade := by
  refine ⟨rfl, by decide⟩

/-- C7 (amended): can_recv is a poll returning Ok(false) when empty,
Ok(true) when data or a disconnect is available and Err(port) when the
packet has been upgraded; it never changes the state word or the data slot,
and it leaves the upgrade slot unchanged in every case except the upgraded
one, where the pending GoUp(port) is consumed and replaced by SendUsed. -/
theorem C7_can_recv_poll {T : Type} (p : Oneshot.Packet T) :
    (p.state = Oneshot.EMPTY →
      Oneshot.can_recv p = some (Except.ok false, p)) ∧
    (p.state = Oneshot.DATA →
      Oneshot.can_recv p = some (Except.ok true, p)) ∧
    (p.state = Oneshot.DISCONNECTED → p.data.isSome →
      Oneshot.can_recv p = some (Except.ok true, p)) ∧
    (p.state = Oneshot.DISCONNECTED → p.data = none →
      ∀ up, p.upgrade = Oneshot.MyUpgrade.GoUp up →
        Oneshot.can_recv p =
          some (Except.error up,
                { p with upgrade := Oneshot.MyUpgrade.SendUsed })) ∧
    (p.state = Oneshot.DISCONNECTED → p.data = none →
      (∀ up, p.upgrade ≠ Oneshot.MyUpgrade.GoUp up) →
      Oneshot.can_recv p = some (Except.ok true, p)) ∧
    (∀ r q, Oneshot.can_recv p = some (r, q) →
      q.state = p.state ∧ q.data = p.data) := by
  obtain ⟨s, d, u⟩ := p
  refine ⟨?_, ?_, ?_, ?_, ?_, ?_⟩
  · intro hs
    simp only [Oneshot.Packet.state] at hs
    subst hs
    simp [Oneshot.can_recv, Oneshot.EMPTY]
  · intro hs
    simp only [Oneshot.Packet.state] at hs
    subst hs
    simp [Oneshot.can_recv, Oneshot.EMPTY, Oneshot.DATA]
  · intro hs hd
    simp only [Oneshot.Packet.state] at hs
    subst hs
    simp only [Oneshot.Packet.data, Option.isSome] at hd
    cases d with
    | none => simp at hd
    | some v =>
      simp [Oneshot.can_recv, Oneshot.EMPTY, Oneshot.DATA,
        Oneshot.DISCONNECTED]
  · intro hs hd up hu
    simp only [Oneshot.Packet.state] at hs
    simp only [Oneshot.Packet.data] at hd
    simp only [Oneshot.Packet.upgrade] at hu
    subst hs; subst hd; subst hu
    simp [Oneshot.can_recv, Oneshot.EMPTY, Oneshot.DATA,
      Oneshot.DISCONNECTED]
  · intro hs hd hu
    simp only [Oneshot.Packet.state] at hs
    simp only [Oneshot.Packet.data] at hd
    simp only [Oneshot.Packet.upgrade] at hu
    subst hs; subst hd
    cases u with
    | GoUp up => exact absurd rfl (hu up)
    | NothingSent =>
      simp [Oneshot.can_recv, Oneshot.EMPTY, Oneshot.DATA,
        Oneshot.DISCONNECTED]
    | SendUsed =>
      simp [Oneshot.can_recv, Oneshot.EMPTY, Oneshot.DATA,
        Oneshot.DISCONNECTED]
  · intro r q hq
    simp only [Oneshot.can_recv] at hq
    split at hq
    · injection hq with hq
      injection hq with hr hq
      subst hq
      exact ⟨rfl, rfl⟩
    · split at hq
      · injection hq with hq
        injection hq with hr hq
        subst hq
        exact ⟨rfl, rfl⟩
      · split at hq
        · split at hq
          · injection hq with hq
            injection hq with hr hq
            subst hq
            exact ⟨rfl, rfl⟩
          · split at hq
            · injection hq with hq
              injection hq with hr hq
              subst hq
              exact ⟨rfl, rfl⟩
            · injection hq with hq
              injection hq with hr hq
              subst hq
              exact ⟨rfl, rfl⟩
        · exact absurd hq (by simp)

/-- C7 witness: the amended theorem applied at pC7 (pending upgrade) and at
a disconnected packet without an upgrade. -/
theorem C7_witness :
    Oneshot.can_recv pC7 =
      some (Except.error ⟨5⟩,
            { pC7 with upgrade := Oneshot.MyUpgrade.SendUsed }) ∧
    Oneshot.can_recv pC10 = some (Except.ok true, pC10) := by
  constructor
  · exact (C7_can_recv_poll pC7).2.2.2.1 rfl rfl ⟨5⟩ rfl
  · exact (C7_can_recv_poll pC10).2.2.2.2.1 rfl rfl (fun up h => by
      simp [pC10] at h)

/-- C8: abort_selection on a deposited handle swaps it back to EMPTY,
trashes the reclaimed handle without waking anyone and reports false; when
the word instead holds DATA or DISCONNECTED the handle was already consumed
by the peer and it reports true, leaving the packet unchanged. -/
theorem C8_abort_selection {T : Type} (p : Oneshot.Packet T) :
    ((p.state = Oneshot.DATA ∨ p.state = Oneshot.DISCONNECTED) →
      Oneshot.abort_selection p = some (true, p, Oneshot.noEffect)) ∧
    (p.state ≠ Oneshot.EMPTY → p.state ≠ Oneshot.DATA →
      p.state ≠ Oneshot.DISCONNECTED →
      Oneshot.abort_selection p =
        some (false, { p with state := Oneshot.EMPTY },
              { woken := none, trashed := some p.state })) := by
  constructor
  · intro hs
    have hne : p.state ≠ Oneshot.EMPTY := by
      rcases hs with hs | hs <;> rw [hs] <;> decide
    simp [Oneshot.abort_selection, hne, hs]
  · intro h0 h1 h2
    simp [Oneshot.abort_selection, h0, h1, h2]

/-- C8 witness: the theorem applied at the packet pC8 holding handle 7, and
at the disconnected packet pC10. -/
theorem C8_witness :
    Oneshot.abort_selection pC8 =
      some (false, { pC8 with state := Oneshot.EMPTY },
            { woken := none, trashed := some 7 }) ∧
    Oneshot.abort_selection pC10 = some (true, pC10, Oneshot.noEffect) := by
  constructor
  · exact (C8_abort_selection pC8).2 (by decide) (by decide) (by decide)
  · exact (C8_abort_selection pC10).1 (Or.inr rfl)

/-- C10: try_recv on a DISCONNECTED packet with no data and NothingSent in
the upgrade slot returns Disconnected but leaves SendUsed behind (the
util::replace is not undone in this arm), after which the sender-side
predicate sent() reports true even though nothing was ever sent. -/
theorem C10_try_recv_leaves_SendUsed {T : Type} (p : Oneshot.Packet T)
    (hs : p.state = Oneshot.DISCONNECTED) (hd : p.data = none)
    (hu : p.upgrade = Oneshot.MyUpgrade.NothingSent) :
    Oneshot.try_recv p =
      some (Except.error Oneshot.Failure.Disconnected,
            { p with upgrade := Oneshot.MyUpgrade.SendUsed }) ∧
    Oneshot.sent { p with upgrade := Oneshot.MyUpgrade.SendUsed } = true ∧
    Oneshot.sent p = false := by
  obtain ⟨s, d, u⟩ := p
  simp only [Oneshot.Packet.state] at hs
  simp only [Oneshot.Packet.data] at hd
  simp only [Oneshot.Packet.upgrade] at hu
  subst hs; subst hd; subst hu
  refine ⟨?_, rfl, rfl⟩
  simp [Oneshot.try_recv, Oneshot.EMPTY, Oneshot.DATA, Oneshot.DISCONNECTED]

/-- C10 witness: the theorem applied at the concrete packet pC10. -/
theorem C10_witness :
    Oneshot.try_recv pC10 =
      some (Except.error Oneshot.Failure.Disconnected,
            { pC10 with upgrade := Oneshot.MyUpgrade.SendUsed }) ∧
    Oneshot.sent { pC10 with upgrade := Oneshot.MyUpgrade.SendUsed } = true ∧
    Oneshot.sent pC10 = false :=
  C10_try_recv_leaves_SendUsed pC10 rfl rfl rfl

/-- A stream try_recv that reports Empty saw an empty queue and a counter
other than DISCONNECTED, and left the packet unchanged. -/
theorem Strm.try_recv_empty_dest {T : Type} (p : Strm.Packet T)
    (h : (Strm.try_recv p).1 = Except.error Strm.Failure.Empty) :
    p.queue = [] ∧ p.cnt ≠ Strm.DISCONNECTED ∧
    Strm.try_recv p = (Except.error Strm.Failure.Empty, p) := by
  obtain ⟨q, cn, st, tw, gh⟩ := p
  cases q with
  | cons m rest =>
    exfalso
    cases m <;> simp [Strm.try_recv, Strm.pop] at h
  | nil =>
    by_cases hc : cn = Strm.DISCONNECTED
    · exfalso
      subst hc
      simp [Strm.try_recv, Strm.pop] at h
    · refine ⟨rfl, hc, ?_⟩
      simp [Strm.try_recv, Strm.pop, hc]

/-- C1 counterexample to the claim as stated: on the packet pC1 (counter 1,
no steals, empty queue) the receiver's parking attempt subtracts 1 + steals,
leaving the counter at 0 — which is at most 0 — yet recv does not suspend:
it cancels the park and retries try_recv (returning through the ret
outcome).  The claim's boundary "suspend iff result after subtract is at
most 0" is therefore wrong at 0; the code parks only when the result is
strictly negative. -/
theorem C1_counterexample :
    pC1.cnt - (1 + pC1.steals) ≤ 0 ∧
    Strm.recvStep pC1 3 =
      some (Strm.RecvOutcome.ret (Except.error Strm.Failure.Empty)
            { pC1 with cnt := 0 }) := by
  exact ⟨by decide, rfl⟩

/-- C1 (amended): when recv prepares to park it fetch-subtracts (1 + steals)
from the counter; it suspends exactly when the resulting value after the
subtract is at most -1 (equivalently, the previous value was at most the
folded-in steals); in every other non-DISCONNECTED case it cancels the
park, reclaims the to-wake handle and retries try_recv. -/
theorem C1_recv_park_boundary {T : Type} (p : Strm.Packet T) (h : Nat)
    (hw : p.to_wake = none)
    (he : (Strm.try_recv p).1 = Except.error Strm.Failure.Empty) :
    (p.cnt - (1 + p.steals) ≤ -1 →
      Strm.recvStep p h =
        some (Strm.RecvOutcome.parked
          { p with to_wake := some h, steals := 0,
                   cnt := p.cnt - (1 + p.steals) })) ∧
    (0 ≤ p.cnt - (1 + p.steals) →
      Strm.recvStep p h =
        some (Strm.RecvOutcome.ret
          (Strm.recvCancelFinish
            { p with to_wake := none, steals := 0,
                     cnt := p.cnt - (1 + p.steals) }).1
          (Strm.recvCancelFinish
            { p with to_wake := none, steals := 0,
                     cnt := p.cnt - (1 + p.steals) }).2)) ∧
    ((∃ q, Strm.recvStep p h = some (Strm.RecvOutcome.parked q)) ↔
      p.cnt - (1 + p.steals) ≤ -1) := by
  obtain ⟨hq, hcd, htr⟩ := Strm.try_recv_empty_dest p he
  obtain ⟨qu, cn, st, tw, gh⟩ := p
  simp only [Strm.Packet.to_wake] at hw
  simp only [Strm.Packet.queue] at hq
  simp only [Strm.Packet.cnt] at hcd
  simp only [Strm.Packet.cnt, Strm.Packet.steals]
  subst hw; subst hq
  have hpark : cn - (1 + st) ≤ -1 →
      Strm.recvStep (⟨[], cn, st, none, gh⟩ : Strm.Packet T) h =
        some (Strm.RecvOutcome.parked ⟨[], cn - (1 + st), 0, some h, gh⟩) := by
    intro hle
    simp only [Strm.recvStep, htr]
    simp only [Option.isSome_none, Bool.false_eq_true, if_false]
    rw [if_neg hcd, if_pos (show cn - st ≤ 0 by omega)]
  have hcancel : 0 ≤ cn - (1 + st) →
      Strm.recvStep (⟨[], cn, st, none, gh⟩ : Strm.Packet T) h =
        some (Strm.RecvOutcome.ret
          (Strm.recvCancelFinish
            (⟨[], cn - (1 + st), 0, none, gh⟩ : Strm.Packet T)).1
          (Strm.recvCancelFinish
            (⟨[], cn - (1 + st), 0, none, gh⟩ : Strm.Packet T)).2) := by
    intro hge
    simp only [Strm.recvStep, htr]
    simp only [Option.isSome_none, Bool.false_eq_true, if_false]
    rw [if_neg hcd, if_neg (show ¬cn - st ≤ 0 by omega)]
  refine ⟨hpark, hcancel, ?_, fun hle => ⟨_, hpark hle⟩⟩
  rintro ⟨q, hq2⟩
  by_contra hgt
  rw [hcancel (by omega)] at hq2
  simp at hq2

/-- C1 witness: the amended theorem applied at a fresh stream packet, where
the subtract takes the counter to -1 and the receiver parks. -/
theorem C1_witness :
    Strm.recvStep (Strm.Packet.new Nat) 3 =
      some (Strm.RecvOutcome.parked
        { queue := [], cnt := -1, steals := 0, to_wake := some 3,
          go_home := false }) :=
  (C1_recv_park_boundary (Strm.Packet.new Nat) 3 rfl rfl).1 (by decide)

/-- C6 counterexample: on the packet pC6 — counter DISCONNECTED and one
orphaned message still queued — do_send does not pop both items and return
false as the claim describes: the assert! that the second pop finds nothing
fails, so the operation aborts (none) instead of completing. -/
theorem C6_counterexample :
    Strm.do_send pC6 (Strm.Message.Data 8) = none := rfl

/-- C6 (amended): when do_send observes the prior counter value
DISCONNECTED after its fetch-add it re-stores DISCONNECTED and pops twice,
asserting that the second pop finds the queue empty — so at most one item
(its own push, unless a concurrent drain already consumed it) is removed,
and it returns true iff the first pop finds the queue empty.  In this
sequential model the queue still holds the just-pushed message, so the
first pop recovers exactly it and the send completes with false when the
rest of the queue is empty, and trips the assertion otherwise. -/
theorem C6_do_send_disconnected {T : Type} (p : Strm.Packet T)
    (t : Strm.Message T) (hg : p.go_home = false)
    (hc : p.cnt = Strm.DISCONNECTED) :
    (p.queue = [] → Strm.do_send p t = some (false, p, Strm.noEffect)) ∧
    (p.queue ≠ [] → Strm.do_send p t = none) := by
  have h1 : Strm.DISCONNECTED ≠ (-1 : Int) := by decide
  have h2 : Strm.DISCONNECTED ≠ (-2 : Int) := by decide
  obtain ⟨qu, cn, st, tw, gh⟩ := p
  simp only [Strm.Packet.go_home] at hg
  simp only [Strm.Packet.cnt] at hc
  simp only [Strm.Packet.queue]
  subst hg; subst hc
  constructor
  · intro hq
    subst hq
    simp [Strm.do_send, Strm.pop, h1, h2, Strm.noEffect]
  · intro hq
    match qu, hq with
    | m :: rest, _ =>
      cases rest <;>
        simp [Strm.do_send, Strm.pop, h1, h2]

/-- C6 witness: the amended theorem applied at a drained disconnected
packet: the send pops its own message back and reports false. -/
theorem C6_witness :
    Strm.do_send
      ({ queue := [], cnt := Strm.DISCONNECTED, steals := 0, to_wake := none,
         go_home := false } : Strm.Packet Nat) (Strm.Message.Data 8) =
      some (false,
            { queue := [], cnt := Strm.DISCONNECTED, steals := 0,
              to_wake := none, go_home := false }, Strm.noEffect) :=
  (C6_do_send_disconnected _ _ rfl rfl).1 rfl

/-- int::min_value is well below the -1 and -2 sentinels. -/
theorem Strm.DISC_lt : Strm.DISCONNECTED < -2 := by decide

/-- do_send preserves the stream invariant (shared by send and upgrade). -/
theorem sInv_do_send {T : Type} {c : SConf T} {m : Strm.Message T}
    {b : Bool} {p' : Strm.Packet T} {eff : Strm.Effect}
    (hI : SInv c) (hcd : c.chanDropped = false)
    (hds : Strm.do_send c.pkt m = some (b, p', eff)) :
    SInv { c with pkt := p',
                  rstat := if eff.woken.isSome then RStatus.resuming
                           else c.rstat } := by
  have hD := Strm.DISC_lt
  obtain ⟨pkt, rs, cd, pd⟩ := c
  obtain ⟨qu, cn, st, tw, gh⟩ := pkt
  simp only [SConf.chanDropped] at hcd
  subst hcd
  obtain ⟨h1, h2, h3, h4, h5, h6, h7⟩ := hI
  simp only [SConf.pkt, SConf.rstat, SConf.portDropped,
    Strm.Packet.cnt, Strm.Packet.go_home, Strm.Packet.steals,
    Strm.Packet.queue, Strm.Packet.to_wake] at h1 h2 h3 h4 h5 h6 h7 hds ⊢
  cases gh with
  | true =>
    simp only [Strm.do_send, if_pos] at hds
    injection hds with hds
    injection hds with hb hds
    injection hds with hp heff
    subst hb; subst hp; subst heff
    exact ⟨h1, h2, h3, h4, h5, h6, h7⟩
  | false =>
    have hpd : pd = false := by
      cases pd with
      | false => rfl
      | true => exact absurd (h3 rfl) (by simp)
    subst hpd
    cases rs with
    | idle =>
      obtain ⟨htw, hco⟩ := h7
      subst htw
      rcases hco with hcn | hcn
      · exact absurd (h2 hcn) (by simp)
      · simp only [Strm.do_send, Bool.false_eq_true, if_false] at hds
        rw [if_neg (by omega), if_neg (by omega), if_neg (by omega),
            if_pos (by omega)] at hds
        injection hds with hds
        injection hds with hb hds
        injection hds with hp heff
        subst hb; subst hp; subst heff
        simp [SInv, Strm.noEffect, List.length_append]
        omega
    | parked h =>
      obtain ⟨htw, hcn, hqu, hst⟩ := h7
      subst htw; subst hcn; subst hqu; subst hst
      simp only [Strm.do_send, Bool.false_eq_true, if_false, if_pos] at hds
      injection hds with hds
      injection hds with hb hds
      injection hds with hp heff
      subst hb; subst hp; subst heff
      simp [SInv, Strm.noEffect]
      omega
    | resuming =>
      obtain ⟨htw, hco⟩ := h7
      subst htw
      rcases hco with hcn | ⟨hcn, hlen⟩
      · exact absurd (h2 hcn) (by simp)
      · simp only [Strm.do_send, Bool.false_eq_true, if_false] at hds
        rw [if_neg (by omega), if_neg (by omega), if_neg (by omega),
            if_pos (by omega)] at hds
        injection hds with hds
        injection hds with hb hds
        injection hds with hp heff
        subst hb; subst hp; subst heff
        simp [SInv, Strm.noEffect, List.length_append]
        omega

/-- try_recv run by an idle receiver preserves the stream invariant. -/
theorem sInv_try_recv_idle {T : Type} {c : SConf T}
    (hI : SInv c) (hrs : c.rstat = RStatus.idle) :
    SInv { c with pkt := (Strm.try_recv c.pkt).2 } := by
  obtain ⟨pkt, rs, cd, pd⟩ := c
  obtain ⟨qu, cn, st, tw, gh⟩ := pkt
  simp only [SConf.rstat] at hrs
  subst hrs
  obtain ⟨h1, h2, h3, h4, h5, h6, h7⟩ := hI
  simp only [SConf.pkt, SConf.chanDropped, SConf.portDropped,
    Strm.Packet.cnt, Strm.Packet.go_home, Strm.Packet.steals,
    Strm.Packet.queue, Strm.Packet.to_wake] at h1 h2 h3 h4 h5 h6 h7
  obtain ⟨htw, hco⟩ := h7
  subst htw
  cases qu with
  | nil =>
    by_cases hc : cn = Strm.DISCONNECTED
    · subst hc
      have e : (Strm.try_recv
          (⟨[], Strm.DISCONNECTED, st, none, gh⟩ : Strm.Packet T)).2 =
          ⟨[], Strm.DISCONNECTED, st, none, gh⟩ := by
        simp [Strm.try_recv, Strm.pop]
      rw [e]
      exact ⟨h1, h2, h3, h4, fun _ => rfl, h6, rfl, hco⟩
    · have e : (Strm.try_recv (⟨[], cn, st, none, gh⟩ : Strm.Packet T)).2 =
          ⟨[], cn, st, none, gh⟩ := by
        simp [Strm.try_recv, Strm.pop, hc]
      rw [e]
      exact ⟨h1, h2, h3, h4, fun _ => rfl, h6, rfl, hco⟩
  | cons m rest =>
    have e : (Strm.try_recv (⟨m :: rest, cn, st, none, gh⟩ :
        Strm.Packet T)).2 = ⟨rest, cn, st + 1, none, gh⟩ := by
      cases m <;> simp [Strm.try_recv, Strm.pop]
    rw [e]
    simp only [List.length_cons] at hco
    exact ⟨h1, h2, h3, h4, fun _ => rfl,
      (by omega : (0 : Int) ≤ st + 1), rfl,
      (by omega : cn = Strm.DISCONNECTED ∨
        cn = (rest.length : Int) + (st + 1))⟩

/-- drop_chan preserves the stream invariant. -/
theorem sInv_drop_chan {T : Type} {c : SConf T} {p' : Strm.Packet T}
    {eff : Strm.Effect} (hI : SInv c) (hcd : c.chanDropped = false)
    (hdc : Strm.drop_chan c.pkt = some (p', eff)) :
    SInv { c with pkt := p', chanDropped := true,
                  rstat := if eff.woken.isSome then RStatus.resuming
                           else c.rstat } := by
  have hD := Strm.DISC_lt
  obtain ⟨pkt, rs, cd, pd⟩ := c
  obtain ⟨qu, cn, st, tw, gh⟩ := pkt
  simp only [SConf.chanDropped] at hcd
  subst hcd
  obtain ⟨h1, h2, h3, h4, h5, h6, h7⟩ := hI
  simp only [SConf.pkt, SConf.rstat, SConf.portDropped,
    Strm.Packet.cnt, Strm.Packet.go_home, Strm.Packet.steals,
    Strm.Packet.queue, Strm.Packet.to_wake] at h1 h2 h3 h4 h5 h6 h7 hdc ⊢
  cases rs with
  | idle =>
    obtain ⟨htw, hco⟩ := h7
    subst htw
    simp only [Strm.drop_chan] at hdc
    split at hdc
    · exact absurd hdc (by simp)
    · split at hdc
      · injection hdc with hdc
        injection hdc with hp heff
        subst hp; subst heff
        exact ⟨fun _ => rfl, fun _ => Or.inl rfl, h3, h4, fun _ => rfl,
          h6, rfl, Or.inl rfl⟩
      · split at hdc
        · injection hdc with hdc
          injection hdc with hp heff
          subst hp; subst heff
          exact ⟨fun _ => rfl, fun _ => Or.inl rfl, h3, h4, fun _ => rfl,
            h6, rfl, Or.inl rfl⟩
        · exact absurd hdc (by simp)
  | parked h =>
    obtain ⟨htw, hcn, hqu, hst⟩ := h7
    subst htw; subst hcn; subst hqu; subst hst
    have hpd : pd = false := by
      cases pd with
      | false => rfl
      | true => exact absurd (h5 rfl) (by simp)
    subst hpd
    have hgh : gh = false := by
      cases gh with
      | false => rfl
      | true => exact absurd (h4 rfl) (by simp)
    subst hgh
    simp only [Strm.drop_chan, if_pos] at hdc
    injection hdc with hdc
    injection hdc with hp heff
    subst hp; subst heff
    simp [SInv, Strm.noEffect]
  | resuming =>
    obtain ⟨htw, hco⟩ := h7
    subst htw
    have hpd : pd = false := by
      cases pd with
      | false => rfl
      | true => exact absurd (h5 rfl) (by simp)
    subst hpd
    have hgh : gh = false := by
      cases gh with
      | false => rfl
      | true => exact absurd (h4 rfl) (by simp)
    subst hgh
    simp only [Strm.drop_chan] at hdc
    split at hdc
    · exact absurd hdc (by simp)
    · split at hdc
      · injection hdc with hdc
        injection hdc with hp heff
        subst hp; subst heff
        simp [SInv, Strm.noEffect]
        omega
      · split at hdc
        · injection hdc with hdc
          injection hdc with hp heff
          subst hp; subst heff
          simp [SInv, Strm.noEffect]
          omega
        · exact absurd hdc (by simp)

/-- The front half of recv preserves the stream invariant (recvStart). -/
theorem sInv_recvStart {T : Type} {c c' : SConf T} {h : Nat} {out : SOut T}
    (hI : SInv c) (hs : sstep c (SOp.recvStart h) = some (c', out)) :
    SInv c' := by
  have hD := Strm.DISC_lt
  obtain ⟨pkt, rs, cd, pd⟩ := c
  cases pd with
  | true => exact absurd hs (by simp [sstep])
  | false =>
  cases rs with
  | parked hh => exact absurd hs (by simp [sstep])
  | resuming => exact absurd hs (by simp [sstep])
  | idle =>
  obtain ⟨qu, cn, st, tw, gh⟩ := pkt
  obtain ⟨h1, h2, h3, h4, h5, h6, h7⟩ := hI
  simp only [SConf.pkt, SConf.chanDropped, SConf.portDropped,
    Strm.Packet.cnt, Strm.Packet.go_home, Strm.Packet.steals,
    Strm.Packet.queue, Strm.Packet.to_wake] at h1 h2 h3 h4 h6 h7
  obtain ⟨htw, hco⟩ := h7
  subst htw
  simp only [sstep, Bool.false_eq_true, if_false] at hs
  cases qu with
  | cons m rest =>
    have e : Strm.recvStep (⟨m :: rest, cn, st, none, gh⟩ :
        Strm.Packet T) h =
        some (Strm.RecvOutcome.ret (Strm.try_recv
          (⟨m :: rest, cn, st, none, gh⟩ : Strm.Packet T)).1
          (⟨rest, cn, st + 1, none, gh⟩ : Strm.Packet T)) := by
      cases m <;> simp [Strm.recvStep, Strm.try_recv, Strm.pop]
    rw [e] at hs
    injection hs with hs
    injection hs with hc' hout
    subst hc'
    have hpre := sInv_try_recv_idle
      (c := ⟨⟨m :: rest, cn, st, none, gh⟩, RStatus.idle, cd, false⟩)
      ⟨h1, h2, h3, h4, fun _ => rfl, h6, rfl, hco⟩ rfl
    have e2 : (Strm.try_recv (⟨m :: rest, cn, st, none, gh⟩ :
        Strm.Packet T)).2 = ⟨rest, cn, st + 1, none, gh⟩ := by
      cases m <;> simp [Strm.try_recv, Strm.pop]
    rw [e2] at hpre
    exact hpre
  | nil =>
    by_cases hc : cn = Strm.DISCONNECTED
    · subst hc
      have e : Strm.recvStep
          (⟨[], Strm.DISCONNECTED, st, none, gh⟩ : Strm.Packet T) h =
          some (Strm.RecvOutcome.ret (Except.error Strm.Failure.Disconnected)
            (⟨[], Strm.DISCONNECTED, st, none, gh⟩ : Strm.Packet T)) := by
        simp [Strm.recvStep, Strm.try_recv, Strm.pop]
      rw [e] at hs
      injection hs with hs
      injection hs with hc' hout
      subst hc'
      exact ⟨h1, h2, h3, h4, fun _ => rfl, h6, rfl, hco⟩
    · have hEmpty : Strm.try_recv (⟨[], cn, st, none, gh⟩ : Strm.Packet T) =
          (Except.error Strm.Failure.Empty,
           ⟨[], cn, st, none, gh⟩) := by
        simp [Strm.try_recv, Strm.pop, hc]
      have hcnst : cn = st := by
        rcases hco with hco | hco
        · exact absurd hco hc
        · simpa using hco
      have e : Strm.recvStep (⟨[], cn, st, none, gh⟩ : Strm.Packet T) h =
          some (Strm.RecvOutcome.parked
            (⟨[], cn - (1 + st), 0, some h, gh⟩ : Strm.Packet T)) := by
        simp only [Strm.recvStep, hEmpty]
        simp only [Strm.Packet.to_wake, Option.isSome_none,
          Bool.false_eq_true, if_false]
        rw [if_neg (by simpa using hc), if_pos (by simp; omega)]
      rw [e] at hs
      injection hs with hs
      injection hs with hc' hout
      subst hc'
      have hnd : cd = false := by
        cases cd with
        | false => rfl
        | true => exact absurd (h1 (Or.inl rfl)) hc
      subst hnd
      refine ⟨by simp, ?_, by simp, h4, by simp, ?_, ?_⟩
      · intro hdisc
        exfalso
        simp only [SConf.pkt, Strm.Packet.cnt] at hdisc
        omega
      · simp only [SConf.pkt, Strm.Packet.steals]
        omega
      · refine ⟨rfl, ?_, rfl, rfl⟩
        simp only [SConf.pkt, Strm.Packet.cnt]
        omega

/-- The post-wake tail of recv preserves the stream invariant. -/
theorem sInv_recvResume {T : Type} {c c' : SConf T} {out : SOut T}
    (hI : SInv c) (hs : sstep c SOp.recvResume = some (c', out)) :
    SInv c' := by
  obtain ⟨pkt, rs, cd, pd⟩ := c
  cases rs with
  | idle => exact absurd hs (by simp [sstep])
  | parked hh => exact absurd hs (by simp [sstep])
  | resuming =>
  obtain ⟨qu, cn, st, tw, gh⟩ := pkt
  obtain ⟨h1, h2, h3, h4, h5, h6, h7⟩ := hI
  simp only [SConf.pkt, SConf.chanDropped, SConf.portDropped,
    Strm.Packet.cnt, Strm.Packet.go_home, Strm.Packet.steals,
    Strm.Packet.queue, Strm.Packet.to_wake] at h1 h2 h3 h4 h6 h7
  obtain ⟨htw, hco⟩ := h7
  subst htw
  simp only [sstep] at hs
  cases qu with
  | cons m rest =>
    have e : Strm.recvCancelFinish (⟨m :: rest, cn, st, none, gh⟩ :
        Strm.Packet T) =
        ((Strm.try_recv (⟨m :: rest, cn, st, none, gh⟩ :
            Strm.Packet T)).1,
         ⟨rest, cn, st + 1 - 1, none, gh⟩) := by
      cases m <;>
        simp [Strm.recvCancelFinish, Strm.try_recv, Strm.pop]
    rw [e] at hs
    injection hs with hs
    injection hs with hc' hout
    subst hc'
    simp only [List.length_cons] at hco
    exact ⟨h1, h2, h3, h4, fun _ => rfl,
      (by omega : (0 : Int) ≤ st + 1 - 1), rfl,
      (by omega : cn = Strm.DISCONNECTED ∨
        cn = (rest.length : Int) + (st + 1 - 1))⟩
  | nil =>
    have hcd : cn = Strm.DISCONNECTED := by
      rcases hco with hco | ⟨hco, hlen⟩
      · exact hco
      · simp at hlen
    subst hcd
    have e : Strm.recvCancelFinish
        (⟨[], Strm.DISCONNECTED, st, none, gh⟩ : Strm.Packet T) =
        (Except.error Strm.Failure.Disconnected,
         ⟨[], Strm.DISCONNECTED, st, none, gh⟩) := by
      simp [Strm.recvCancelFinish, Strm.try_recv, Strm.pop]
    rw [e] at hs
    injection hs with hs
    injection hs with hc' hout
    subst hc'
    exact ⟨h1, h2, h3, h4, fun _ => rfl, h6, rfl, Or.inl rfl⟩

/-- Exit case of the drop_port loop: the counter already reads
DISCONNECTED. -/
theorem Strm.drop_port_loop_exit_disc {T : Type} (fuel : Nat) (s : Int)
    (p : Strm.Packet T) (h : p.cnt = Strm.DISCONNECTED) :
    Strm.drop_port_loop (fuel + 1) s p = some p := by
  simp [Strm.drop_port_loop, h]

/-- Exit case of the drop_port loop: the compare-and-swap from the local
steal count to DISCONNECTED succeeds. -/
theorem Strm.drop_port_loop_exit_eq {T : Type} (fuel : Nat) (s : Int)
    (p : Strm.Packet T) (h : p.cnt ≠ Strm.DISCONNECTED) (h2 : p.cnt = s) :
    Strm.drop_port_loop (fuel + 1) s p =
      some { p with cnt := Strm.DISCONNECTED } := by
  simp only [Strm.drop_port_loop]
  rw [if_neg h, if_pos h2]

/-- Drain case of the drop_port loop: the compare-and-swap failed, so the
queue is drained into the local steal count and the loop retries. -/
theorem Strm.drop_port_loop_drain {T : Type} (fuel : Nat) (s : Int)
    (p : Strm.Packet T) (h : p.cnt ≠ Strm.DISCONNECTED) (h2 : p.cnt ≠ s) :
    Strm.drop_port_loop (fuel + 1) s p =
      Strm.drop_port_loop fuel (s + p.queue.length) { p with queue := [] } := by
  simp only [Strm.drop_port_loop]
  rw [if_neg h, if_neg h2]

/-- drop_port preserves the stream invariant. -/
theorem sInv_dropPort {T : Type} {c c' : SConf T} {out : SOut T}
    (hI : SInv c) (hs : sstep c SOp.dropPort = some (c', out)) :
    SInv c' := by
  obtain ⟨pkt, rs, cd, pd⟩ := c
  cases pd with
  | true => exact absurd hs (by simp [sstep])
  | false =>
  cases rs with
  | parked hh => exact absurd hs (by simp [sstep])
  | resuming => exact absurd hs (by simp [sstep])
  | idle =>
  obtain ⟨qu, cn, st, tw, gh⟩ := pkt
  obtain ⟨h1, h2, h3, h4, h5, h6, h7⟩ := hI
  simp only [SConf.pkt, SConf.chanDropped, SConf.portDropped,
    Strm.Packet.cnt, Strm.Packet.go_home, Strm.Packet.steals,
    Strm.Packet.queue, Strm.Packet.to_wake] at h1 h2 h3 h4 h6 h7
  obtain ⟨htw, hco⟩ := h7
  subst htw
  simp only [sstep, Bool.false_eq_true, if_false] at hs
  have edp : Strm.drop_port (⟨qu, cn, st, none, gh⟩ : Strm.Packet T) =
      some (⟨(if cn = Strm.DISCONNECTED then qu else []),
             Strm.DISCONNECTED, st, none, true⟩ : Strm.Packet T) := by
    by_cases hc : cn = Strm.DISCONNECTED
    · rw [if_pos hc]
      simp only [Strm.drop_port]
      have hx := Strm.drop_port_loop_exit_disc (T := T)
        (qu.length + 1) st ⟨qu, cn, st, none, true⟩ hc
      rw [show qu.length + 2 = (qu.length + 1) + 1 from rfl]
      rw [hx]
      subst hc
      rfl
    · rw [if_neg hc]
      simp only [Strm.drop_port]
      have hcs : cn = (qu.length : Int) + st := by
        rcases hco with hco | hco
        · exact absurd hco hc
        · exact hco
      cases qu with
      | nil =>
        rw [show ([] : List (Strm.Message T)).length + 2 = 1 + 1 from rfl]
        rw [Strm.drop_port_loop_exit_eq 1 st ⟨[], cn, st, none, true⟩ hc
          (by simp only [Strm.Packet.cnt]; simp at hcs; omega)]
      | cons m rest =>
        rw [show (m :: rest).length + 2 = ((m :: rest).length + 1) + 1
              from rfl]
        rw [Strm.drop_port_loop_drain ((m :: rest).length + 1) st
          ⟨m :: rest, cn, st, none, true⟩ hc
          (by simp only [Strm.Packet.cnt, List.length_cons] at hcs ⊢
              omega)]
        rw [Strm.drop_port_loop_exit_eq (m :: rest).length
          (st + ((m :: rest).length : Int)) ⟨[], cn, st, none, true⟩ hc
          (by simp only [Strm.Packet.cnt, List.length_cons] at hcs ⊢
              push_cast
              omega)]
  rw [edp] at hs
  injection hs with hs
  injection hs with hc' hout
  subst hc'
  refine ⟨fun _ => rfl, fun _ => Or.inr rfl, fun _ => rfl, fun _ => rfl,
    fun _ => rfl, h6, rfl, Or.inl rfl⟩

/-- Every interleaved stream step preserves the invariant. -/
theorem sInv_step {T : Type} {c c' : SConf T} {op : SOp T} {out : SOut T}
    (hI : SInv c) (hs : sstep c op = some (c', out)) : SInv c' := by
  cases op with
  | sendOp t =>
    cases hcd : c.chanDropped with
    | true => rw [sstep, hcd] at hs; exact absurd hs (by simp)
    | false =>
      rw [sstep, hcd] at hs
      simp only [Bool.false_eq_true, if_false] at hs
      cases hds : Strm.send c.pkt t with
      | none => rw [hds] at hs; exact absurd hs (by simp)
      | some x =>
        obtain ⟨b, p, eff⟩ := x
        rw [hds] at hs
        injection hs with hs
        injection hs with hc' hout
        subst hc'
        have hpre := sInv_do_send hI hcd hds
        rw [hcd] at hpre
        exact hpre
  | upgradeOp up =>
    cases hcd : c.chanDropped with
    | true => rw [sstep, hcd] at hs; exact absurd hs (by simp)
    | false =>
      rw [sstep, hcd] at hs
      simp only [Bool.false_eq_true, if_false] at hs
      cases hds : Strm.upgrade c.pkt up with
      | none => rw [hds] at hs; exact absurd hs (by simp)
      | some x =>
        obtain ⟨b, p, eff⟩ := x
        rw [hds] at hs
        injection hs with hs
        injection hs with hc' hout
        subst hc'
        have hpre := sInv_do_send hI hcd hds
        rw [hcd] at hpre
        exact hpre
  | dropChan =>
    cases hcd : c.chanDropped with
    | true => rw [sstep, hcd] at hs; exact absurd hs (by simp)
    | false =>
      rw [sstep, hcd] at hs
      simp only [Bool.false_eq_true, if_false] at hs
      cases hdc : Strm.drop_chan c.pkt with
      | none => rw [hdc] at hs; exact absurd hs (by simp)
      | some x =>
        obtain ⟨p, eff⟩ := x
        rw [hdc] at hs
        injection hs with hs
        injection hs with hc' hout
        subst hc'
        exact sInv_drop_chan hI hcd hdc
  | tryRecvOp =>
    cases hpd : c.portDropped with
    | true => rw [sstep, hpd] at hs; exact absurd hs (by simp)
    | false =>
      rw [sstep, hpd] at hs
      simp only [Bool.false_eq_true, if_false] at hs
      cases hrs : c.rstat with
      | parked hh => rw [hrs] at hs; exact absurd hs (by simp)
      | resuming => rw [hrs] at hs; exact absurd hs (by simp)
      | idle =>
        rw [hrs] at hs
        injection hs with hs
        injection hs with hc' hout
        subst hc'
        have hpre := sInv_try_recv_idle hI hrs
        rw [hrs, hpd] at hpre
        exact hpre
  | recvStart h => exact sInv_recvStart hI hs
  | recvResume => exact sInv_recvResume hI hs
  | dropPort => exact sInv_dropPort hI hs

/-- Every reachable stream configuration satisfies the invariant. -/
theorem sInv_reach {T : Type} {c : SConf T} (h : SReach T c) : SInv c := by
  induction h with
  | init =>
    refine ⟨by simp [sInit, Strm.Packet.new], ?_,
      by simp [sInit, Strm.Packet.new], by simp [sInit, Strm.Packet.new],
      by simp [sInit, Strm.Packet.new], by simp [sInit, Strm.Packet.new],
      rfl, Or.inr ?_⟩
    · intro hd
      exfalso
      have hD := Strm.DISC_lt
      simp only [sInit, SConf.pkt, Strm.Packet.new, Strm.Packet.cnt] at hd
      omega
    · simp [sInit, Strm.Packet.new]
  | step hr hs ih => exact sInv_step ih hs

/-- The oneshot coarse sentinels are pairwise distinct: DATA is not EMPTY. -/
theorem neq_DATA_EMPTY : Oneshot.DATA ≠ Oneshot.EMPTY := by decide

/-- The oneshot coarse sentinels are pairwise distinct: DATA is not
DISCONNECTED. -/
theorem neq_DATA_DISC : Oneshot.DATA ≠ Oneshot.DISCONNECTED := by decide

/-- The oneshot coarse sentinels are pairwise distinct: EMPTY is not DATA. -/
theorem neq_EMPTY_DATA : Oneshot.EMPTY ≠ Oneshot.DATA := by decide

/-- The oneshot coarse sentinels are pairwise distinct: EMPTY is not
DISCONNECTED. -/
theorem neq_EMPTY_DISC : Oneshot.EMPTY ≠ Oneshot.DISCONNECTED := by decide

/-- The oneshot coarse sentinels are pairwise distinct: DISCONNECTED is not
DATA. -/
theorem neq_DISC_DATA : Oneshot.DISCONNECTED ≠ Oneshot.DATA := by decide

/-- The oneshot coarse sentinels are pairwise distinct: DISCONNECTED is not
EMPTY. -/
theorem neq_DISC_EMPTY : Oneshot.DISCONNECTED ≠ Oneshot.EMPTY := by decide

/-- Oneshot send preserves the invariant. -/
theorem oInv_send {T : Type} {c : OConf T} {t : T} {r0 : Bool} {b : Bool}
    {p' : Oneshot.Packet T} {eff : Oneshot.Effect}
    (hI : OInv c) (hcd : c.chanDropped = false)
    (hds : Oneshot.send c.pkt t r0 = some (b, p', eff)) :
    OInv { c with pkt := p',
                  rstat := if eff.woken.isSome then RStatus.resuming
                           else c.rstat } := by
  obtain ⟨⟨s, d, u⟩, rs, cd, pd⟩ := c
  simp only [OConf.chanDropped] at hcd
  subst hcd
  obtain ⟨h1, h2, h3, h4⟩ := hI
  simp only [OConf.pkt, OConf.rstat, OConf.portDropped,
    Oneshot.Packet.state, Oneshot.Packet.data, Oneshot.Packet.upgrade]
    at h1 h2 h3 h4 hds ⊢
  cases u with
  | SendUsed => exact absurd hds (by simp [Oneshot.send])
  | GoUp up => exact absurd hds (by simp [Oneshot.send])
  | NothingSent =>
  cases d with
  | some v => exact absurd hds (by simp [Oneshot.send])
  | none =>
  simp only [Oneshot.send, Option.isSome_none, Bool.false_eq_true,
    if_false] at hds
  split at hds
  · -- previous state EMPTY
    rename s = Oneshot.EMPTY => hse
    injection hds with hds
    injection hds with hb hds
    injection hds with hp heff
    subst hp; subst heff
    have hpd : pd = false := by
      cases pd with
      | false => rfl
      | true =>
        rcases h1 (Or.inr rfl) with h | h
        · exact absurd (hse.symm.trans h) neq_EMPTY_DISC
        · exact absurd (hse.symm.trans h.1) neq_EMPTY_DATA
    subst hpd
    exact ⟨fun hd => absurd hd (by simp),
      fun _ h => Oneshot.MyUpgrade.noConfusion h,
      fun hp => absurd hp (by simp), fun _ => neq_DATA_EMPTY⟩
  · split at hds
    · -- previous state DISCONNECTED: take the value back, return false
      injection hds with hds
      injection hds with hb hds
      injection hds with hp heff
      subst hp; subst heff
      refine ⟨?_, fun _ h => Oneshot.MyUpgrade.noConfusion h, h3,
        fun _ => neq_DATA_EMPTY⟩
      intro hd
      refine Or.inr ⟨rfl, rfl, ?_⟩
      rcases hd with hd | hd
      · exact absurd hd (by simp)
      · exact hd
    · split at hds
      · -- previous state DATA: unreachable in the source
        exact absurd hds (by simp)
      · -- previous state a parked handle: wake
        rename ¬s = Oneshot.EMPTY => hne
        rename ¬s = Oneshot.DISCONNECTED => hnd
        rename ¬s = Oneshot.DATA => hnd2
        injection hds with hds
        injection hds with hb hds
        injection hds with hp heff
        subst hp; subst heff
        have hpd : pd = false := by
          cases pd with
          | false => rfl
          | true =>
            rcases h1 (Or.inr rfl) with h | h
            · exact absurd h hnd
            · exact absurd h.1 hnd2
        subst hpd
        exact ⟨fun hd => absurd hd (by simp),
          fun _ h => Oneshot.MyUpgrade.noConfusion h,
          fun hp => absurd hp (by simp), fun _ => neq_DATA_EMPTY⟩

/-- Oneshot upgrade preserves the invariant. -/
theorem oInv_upgrade {T : Type} {c : OConf T} {up : Port T}
    {res : Oneshot.UpgradeResult T} {p' : Oneshot.Packet T}
    (hI : OInv c) (hcd : c.chanDropped = false)
    (hds : Oneshot.upgrade c.pkt up = some (res, p')) :
    OInv { c with pkt := p', rstat := upWokeStatus res c.rstat } := by
  obtain ⟨⟨s, d, u⟩, rs, cd, pd⟩ := c
  simp only [OConf.chanDropped] at hcd
  subst hcd
  obtain ⟨h1, h2, h3, h4⟩ := hI
  simp only [OConf.pkt, OConf.rstat, OConf.portDropped,
    Oneshot.Packet.state, Oneshot.Packet.data, Oneshot.Packet.upgrade]
    at h1 h2 h3 h4 hds ⊢
  cases u with
  | GoUp up0 => exact absurd hds (by simp [Oneshot.upgrade])
  | NothingSent =>
    simp only [Oneshot.upgrade] at hds
    split at hds
    · injection hds with hds
      injection hds with hres hp
      subst hres; subst hp
      exact ⟨fun _ => Or.inl rfl, fun h => absurd h neq_DISC_DATA, h3,
        fun _ => neq_DISC_EMPTY⟩
    · split at hds
      · injection hds with hds
        injection hds with hres hp
        subst hres; subst hp
        exact ⟨fun _ => Or.inl rfl, fun h => absurd h neq_DISC_DATA, h3,
          fun _ => neq_DISC_EMPTY⟩
      · injection hds with hds
        injection hds with hres hp
        subst hres; subst hp
        have hpd : pd = false := by
          cases pd with
          | false => rfl
          | true =>
            rename ¬(s = Oneshot.DATA ∨ s = Oneshot.EMPTY) => hno
            rename ¬s = Oneshot.DISCONNECTED => hnd
            rcases h1 (Or.inr rfl) with h | h
            · exact absurd h hnd
            · exact absurd (Or.inl h.1) hno
        subst hpd
        exact ⟨fun _ => Or.inl rfl, fun h => absurd h neq_DISC_DATA,
          fun hp => absurd hp (by simp), fun _ => neq_DISC_EMPTY⟩
  | SendUsed =>
    simp only [Oneshot.upgrade] at hds
    split at hds
    · injection hds with hds
      injection hds with hres hp
      subst hres; subst hp
      exact ⟨fun _ => Or.inl rfl, fun h => absurd h neq_DISC_DATA, h3,
        fun _ => neq_DISC_EMPTY⟩
    · split at hds
      · injection hds with hds
        injection hds with hres hp
        subst hres; subst hp
        exact ⟨fun _ => Or.inl rfl, fun h => absurd h neq_DISC_DATA, h3,
          fun _ => neq_DISC_EMPTY⟩
      · injection hds with hds
        injection hds with hres hp
        subst hres; subst hp
        have hpd : pd = false := by
          cases pd with
          | false => rfl
          | true =>
            rename ¬(s = Oneshot.DATA ∨ s = Oneshot.EMPTY) => hno
            rename ¬s = Oneshot.DISCONNECTED => hnd
            rcases h1 (Or.inr rfl) with h | h
            · exact absurd h hnd
            · exact absurd (Or.inl h.1) hno
        subst hpd
        exact ⟨fun _ => Or.inl rfl, fun h => absurd h neq_DISC_DATA,
          fun hp => absurd hp (by simp), fun _ => neq_DISC_EMPTY⟩

/-- Oneshot drop_chan preserves the invariant. -/
theorem oInv_drop_chan {T : Type} {c : OConf T} {p' : Oneshot.Packet T}
    {eff : Oneshot.Effect} (hI : OInv c) (hcd : c.chanDropped = false)
    (hdc : Oneshot.drop_chan c.pkt = (p', eff)) :
    OInv { c with pkt := p', chanDropped := true,
                  rstat := if eff.woken.isSome then RStatus.resuming
                           else c.rstat } := by
  obtain ⟨⟨s, d, u⟩, rs, cd, pd⟩ := c
  simp only [OConf.chanDropped] at hcd
  subst hcd
  obtain ⟨h1, h2, h3, h4⟩ := hI
  simp only [OConf.pkt, OConf.rstat, OConf.portDropped,
    Oneshot.Packet.state, Oneshot.Packet.data, Oneshot.Packet.upgrade]
    at h1 h2 h3 h4 hdc ⊢
  by_cases hcoarse : s = Oneshot.DATA ∨ s = Oneshot.DISCONNECTED ∨
      s = Oneshot.EMPTY
  · have e : Oneshot.drop_chan (⟨s, d, u⟩ : Oneshot.Packet T) =
        (⟨Oneshot.DISCONNECTED, d, u⟩, Oneshot.noEffect) := by
      simp [Oneshot.drop_chan, hcoarse]
    rw [e] at hdc
    injection hdc with hp heff
    subst hp; subst heff
    exact ⟨fun _ => Or.inl rfl, fun h => absurd h neq_DISC_DATA, h3,
      fun _ => neq_DISC_EMPTY⟩
  · have e : Oneshot.drop_chan (⟨s, d, u⟩ : Oneshot.Packet T) =
        (⟨Oneshot.DISCONNECTED, d, u⟩,
         { woken := some s, trashed := none }) := by
      simp [Oneshot.drop_chan, hcoarse]
    rw [e] at hdc
    injection hdc with hp heff
    subst hp; subst heff
    have hpd : pd = false := by
      cases pd with
      | false => rfl
      | true =>
        rcases h1 (Or.inr rfl) with h | h
        · exact absurd h (fun hh => hcoarse (Or.inr (Or.inl hh)))
        · exact absurd h.1 (fun hh => hcoarse (Or.inl hh))
    subst hpd
    exact ⟨fun _ => Or.inl rfl, fun h => absurd h neq_DISC_DATA,
      fun hp => absurd hp (by simp), fun _ => neq_DISC_EMPTY⟩

/-- Oneshot try_recv preserves the invariant, leaving the receiver idle (the
common tail of the tryRecv, recvStart and recvResume steps). -/
theorem oInv_try_recv {T : Type} {c : OConf T}
    {r : Except (Oneshot.Failure T) T} {p' : Oneshot.Packet T}
    (hI : OInv c) (htr : Oneshot.try_recv c.pkt = some (r, p')) :
    OInv { pkt := p', rstat := RStatus.idle, chanDropped := c.chanDropped,
           portDropped := false } := by
  obtain ⟨⟨s, d, u⟩, rs, cd, pd⟩ := c
  obtain ⟨h1, h2, h3, h4⟩ := hI
  simp only [OConf.pkt, OConf.rstat, OConf.chanDropped, OConf.portDropped,
    Oneshot.Packet.state, Oneshot.Packet.data, Oneshot.Packet.upgrade]
    at h1 h2 h3 h4 htr ⊢
  simp only [Oneshot.try_recv] at htr
  split at htr
  · -- EMPTY: the packet is unchanged
    rename s = Oneshot.EMPTY => hse
    injection htr with htr
    injection htr with hr hp
    subst hp
    refine ⟨?_, fun h => absurd (hse.symm.trans h) neq_EMPTY_DATA,
      fun hp => absurd hp (by simp), fun h => RStatus.noConfusion h⟩
    intro hd
    rcases hd with hd | hd
    · rcases h1 (Or.inl hd) with h | h
      · exact absurd (hse.symm.trans h) neq_EMPTY_DISC
      · exact absurd (hse.symm.trans h.1) neq_EMPTY_DATA
    · exact absurd hd (by simp)
  · split at htr
    · -- DATA: the word goes back to EMPTY and the data slot drains
      rename s = Oneshot.DATA => hsd
      cases d with
      | none => exact absurd htr (by simp)
      | some v =>
        injection htr with htr
        injection htr with hr hp
        subst hp
        refine ⟨?_, fun h => absurd h neq_EMPTY_DATA,
          fun hp => absurd hp (by simp), fun h => RStatus.noConfusion h⟩
        intro hd
        rcases hd with hd | hd
        · rcases h1 (Or.inl hd) with h | h
          · exact absurd (hsd.symm.trans h) neq_DATA_DISC
          · exact absurd h.2.1 (by simp)
        · exact absurd hd (by simp)
    · split at htr
      · -- DISCONNECTED: the word stays DISCONNECTED
        rename s = Oneshot.DISCONNECTED => hsd
        subst hsd
        cases d with
        | some v =>
          injection htr with htr
          injection htr with hr hp
          subst hp
          exact ⟨fun _ => Or.inl rfl, fun h => absurd h neq_DISC_DATA,
            fun hp => absurd hp (by simp), fun h => RStatus.noConfusion h⟩
        | none =>
          cases u with
          | GoUp up =>
            injection htr with htr
            injection htr with hr hp
            subst hp
            exact ⟨fun _ => Or.inl rfl, fun h => absurd h neq_DISC_DATA,
              fun hp => absurd hp (by simp), fun h => RStatus.noConfusion h⟩
          | NothingSent =>
            injection htr with htr
            injection htr with hr hp
            subst hp
            exact ⟨fun _ => Or.inl rfl, fun h => absurd h neq_DISC_DATA,
              fun hp => absurd hp (by simp), fun h => RStatus.noConfusion h⟩
          | SendUsed =>
            injection htr with htr
            injection htr with hr hp
            subst hp
            exact ⟨fun _ => Or.inl rfl, fun h => absurd h neq_DISC_DATA,
              fun hp => absurd hp (by simp), fun h => RStatus.noConfusion h⟩
      · exact absurd htr (by simp)

/-- Oneshot drop_port preserves the invariant. -/
theorem oInv_drop_port {T : Type} {c : OConf T} {p' : Oneshot.Packet T}
    (hI : OInv c) (hrs : c.rstat = RStatus.idle)
    (hdp : Oneshot.drop_port c.pkt = some p') :
    OInv { c with pkt := p', portDropped := true } := by
  obtain ⟨⟨s, d, u⟩, rs, cd, pd⟩ := c
  simp only [OConf.rstat] at hrs
  subst hrs
  obtain ⟨h1, h2, h3, h4⟩ := hI
  simp only [OConf.pkt, OConf.rstat, OConf.chanDropped, OConf.portDropped,
    Oneshot.Packet.state, Oneshot.Packet.data, Oneshot.Packet.upgrade]
    at h1 h2 h3 h4 hdp ⊢
  simp only [Oneshot.drop_port] at hdp
  split at hdp
  · injection hdp with hp
    subst hp
    exact ⟨fun _ => Or.inl rfl, fun h => absurd h neq_DISC_DATA,
      fun _ => rfl, fun h => RStatus.noConfusion h⟩
  · split at hdp
    · cases d with
      | none => exact absurd hdp (by simp)
      | some v =>
        injection hdp with hp
        subst hp
        exact ⟨fun _ => Or.inl rfl, fun h => absurd h neq_DISC_DATA,
          fun _ => rfl, fun h => RStatus.noConfusion h⟩
    · exact absurd hdp (by simp)

/-- Oneshot can_recv preserves the invariant when called by a live idle
receiver. -/
theorem oInv_can_recv {T : Type} {c : OConf T}
    {r : Except (Port T) Bool} {p' : Oneshot.Packet T}
    (hI : OInv c) (hpd : c.portDropped = false)
    (htr : Oneshot.can_recv c.pkt = some (r, p')) :
    OInv { pkt := p', rstat := RStatus.idle, chanDropped := c.chanDropped,
           portDropped := false } := by
  obtain ⟨⟨s, d, u⟩, rs, cd, pd⟩ := c
  simp only [OConf.portDropped] at hpd
  subst hpd
  obtain ⟨h1, h2, h3, h4⟩ := hI
  simp only [OConf.pkt, OConf.rstat, OConf.chanDropped, OConf.portDropped,
    Oneshot.Packet.state, Oneshot.Packet.data, Oneshot.Packet.upgrade]
    at h1 h2 h3 h4 htr ⊢
  simp only [Oneshot.can_recv] at htr
  split at htr
  · -- EMPTY: unchanged
    rename s = Oneshot.EMPTY => hse
    injection htr with htr
    injection htr with hr hp
    subst hp
    refine ⟨?_, fun h => absurd (hse.symm.trans h) neq_EMPTY_DATA,
      fun hp => absurd hp (by simp), fun h => RStatus.noConfusion h⟩
    intro hd
    rcases hd with hd | hd
    · rcases h1 (Or.inl hd) with h | h
      · exact absurd (hse.symm.trans h) neq_EMPTY_DISC
      · exact absurd h.2.2 (by simp)
    · exact absurd hd (by simp)
  · split at htr
    · -- DATA: unchanged
      rename s = Oneshot.DATA => hsd
      injection htr with htr
      injection htr with hr hp
      subst hp
      refine ⟨?_, fun _ => h2 hsd,
        fun hp => absurd hp (by simp), fun h => RStatus.noConfusion h⟩
      intro hd
      rcases hd with hd | hd
      · rcases h1 (Or.inl hd) with h | h
        · exact absurd (hsd.symm.trans h) neq_DATA_DISC
        · exact absurd h.2.2 (by simp)
      · exact absurd hd (by simp)
    · split at htr
      · -- DISCONNECTED
        rename s = Oneshot.DISCONNECTED => hsd
        subst hsd
        split at htr
        · -- data present: unchanged
          injection htr with htr
          injection htr with hr hp
          subst hp
          exact ⟨fun _ => Or.inl rfl, fun h => absurd h neq_DISC_DATA,
            fun hp => absurd hp (by simp), fun h => RStatus.noConfusion h⟩
        · cases u with
          | GoUp up =>
            injection htr with htr
            injection htr with hr hp
            subst hp
            exact ⟨fun _ => Or.inl rfl, fun h => absurd h neq_DISC_DATA,
              fun hp => absurd hp (by simp), fun h => RStatus.noConfusion h⟩
          | NothingSent =>
            injection htr with htr
            injection htr with hr hp
            subst hp
            exact ⟨fun _ => Or.inl rfl, fun h => absurd h neq_DISC_DATA,
              fun hp => absurd hp (by simp), fun h => RStatus.noConfusion h⟩
          | SendUsed =>
            injection htr with htr
            injection htr with hr hp
            subst hp
            exact ⟨fun _ => Or.inl rfl, fun h => absurd h neq_DISC_DATA,
              fun hp => absurd hp (by simp), fun h => RStatus.noConfusion h⟩
      · exact absurd htr (by simp)

/-- Inversion: the oneshot recvStep parks exactly from EMPTY, depositing the
handle into the state word. -/
theorem Oneshot.recvStep_parked_inv {T : Type} {p p' : Oneshot.Packet T}
    {h hh : Nat}
    (he : Oneshot.recvStep p h = some (Oneshot.RecvOutcome.parked p' hh)) :
    p.state = Oneshot.EMPTY ∧ p' = { p with state := h } ∧ hh = h := by
  simp only [Oneshot.recvStep] at he
  split at he
  · injection he with he
    injection he with hp hhh
    exact ⟨by assumption, hp.symm, hhh.symm⟩
  · cases htr : Oneshot.try_recv p with
    | none => rw [htr] at he; exact absurd he (by simp)
    | some x => rw [htr] at he; exact absurd he (by simp)

/-- Inversion: a returning oneshot recvStep is exactly a try_recv from a
non-EMPTY word. -/
theorem Oneshot.recvStep_ret_inv {T : Type} {p p' : Oneshot.Packet T}
    {h : Nat} {r : Except (Oneshot.Failure T) T}
    (he : Oneshot.recvStep p h = some (Oneshot.RecvOutcome.ret r p')) :
    Oneshot.try_recv p = some (r, p') := by
  simp only [Oneshot.recvStep] at he
  split at he
  · exact absurd he (by simp)
  · cases htr : Oneshot.try_recv p with
    | none => rw [htr] at he; exact absurd he (by simp)
    | some x =>
      rw [htr] at he
      obtain ⟨r0, p0⟩ := x
      simp only [Option.map] at he
      injection he with he
      injection he with hr hp
      rw [hr, hp]

/-- Every interleaved oneshot step preserves the invariant. -/
theorem oInv_step {T : Type} {c c' : OConf T} {op : OOp T} {out : OOut T}
    (hI : OInv c) (hs : ostep c op = some (c', out)) : OInv c' := by
  cases op with
  | sendOp t r0 =>
    cases hcd : c.chanDropped with
    | true => rw [ostep, hcd] at hs; exact absurd hs (by simp)
    | false =>
      rw [ostep, hcd] at hs
      simp only [Bool.false_eq_true, if_false] at hs
      cases hds : Oneshot.send c.pkt t r0 with
      | none => rw [hds] at hs; exact absurd hs (by simp)
      | some x =>
        obtain ⟨b, p, eff⟩ := x
        rw [hds] at hs
        injection hs with hs
        injection hs with hc' hout
        subst hc'
        have hpre := oInv_send hI hcd hds
        rw [hcd] at hpre
        exact hpre
  | upgradeOp up =>
    cases hcd : c.chanDropped with
    | true => rw [ostep, hcd] at hs; exact absurd hs (by simp)
    | false =>
      rw [ostep, hcd] at hs
      simp only [Bool.false_eq_true, if_false] at hs
      cases hds : Oneshot.upgrade c.pkt up with
      | none => rw [hds] at hs; exact absurd hs (by simp)
      | some x =>
        obtain ⟨res, p⟩ := x
        rw [hds] at hs
        injection hs with hs
        injection hs with hc' hout
        subst hc'
        have hpre := oInv_upgrade hI hcd hds
        rw [hcd] at hpre
        exact hpre
  | dropChan =>
    cases hcd : c.chanDropped with
    | true => rw [ostep, hcd] at hs; exact absurd hs (by simp)
    | false =>
      rw [ostep, hcd] at hs
      simp only [Bool.false_eq_true, if_false] at hs
      cases hdc : Oneshot.drop_chan c.pkt with
      | mk p eff =>
        rw [hdc] at hs
        injection hs with hs
        injection hs with hc' hout
        subst hc'
        exact oInv_drop_chan hI hcd hdc
  | tryRecvOp =>
    cases hpd : c.portDropped with
    | true => rw [ostep, hpd] at hs; exact absurd hs (by simp)
    | false =>
      rw [ostep, hpd] at hs
      simp only [Bool.false_eq_true, if_false] at hs
      cases hrs : c.rstat with
      | parked hh => rw [hrs] at hs; exact absurd hs (by simp)
      | resuming => rw [hrs] at hs; exact absurd hs (by simp)
      | idle =>
        rw [hrs] at hs
        cases htr : Oneshot.try_recv c.pkt with
        | none => rw [htr] at hs; exact absurd hs (by simp)
        | some x =>
          obtain ⟨r, p⟩ := x
          rw [htr] at hs
          injection hs with hs
          injection hs with hc' hout
          subst hc'
          exact oInv_try_recv hI htr
  | recvStart h =>
    cases hpd : c.portDropped with
    | true => rw [ostep, hpd] at hs; exact absurd hs (by simp)
    | false =>
      rw [ostep, hpd] at hs
      simp only [Bool.false_eq_true, if_false] at hs
      by_cases hh3 : h < 3
      · rw [if_pos hh3] at hs
        exact absurd hs (by simp)
      · rw [if_neg hh3] at hs
        cases hrs : c.rstat with
        | parked hh => rw [hrs] at hs; exact absurd hs (by simp)
        | resuming => rw [hrs] at hs; exact absurd hs (by simp)
        | idle =>
          rw [hrs] at hs
          cases hstep : Oneshot.recvStep c.pkt h with
          | none => rw [hstep] at hs; exact absurd hs (by simp)
          | some o =>
            cases o with
            | parked p hh =>
              rw [hstep] at hs
              injection hs with hs
              injection hs with hc' hout
              subst hc'
              obtain ⟨hse, hp, hhh⟩ := Oneshot.recvStep_parked_inv hstep
              subst hp
              obtain ⟨h1, h2, h3, h4⟩ := hI
              refine ⟨?_, ?_, fun hp => absurd hp (by simp),
                fun h4' => RStatus.noConfusion h4'⟩
              · intro hd
                rcases hd with hd | hd
                · rcases h1 (Or.inl hd) with hx | hx
                  · exact absurd (hse.symm.trans hx) neq_EMPTY_DISC
                  · exact absurd (hse.symm.trans hx.1) neq_EMPTY_DATA
                · exact absurd hd (by simp)
              · intro hD'
                exact absurd (show h = 1 from hD') (by omega)
            | ret r p =>
              rw [hstep] at hs
              injection hs with hs
              injection hs with hc' hout
              subst hc'
              exact oInv_try_recv hI (Oneshot.recvStep_ret_inv hstep)
  | recvResume =>
    cases hrs : c.rstat with
    | idle => rw [ostep, hrs] at hs; exact absurd hs (by simp)
    | parked hh => rw [ostep, hrs] at hs; exact absurd hs (by simp)
    | resuming =>
      rw [ostep, hrs] at hs
      have hpd : c.portDropped = false := by
        cases hpd0 : c.portDropped with
        | false => rfl
        | true =>
          exact absurd ((hI.2.2.1 hpd0).symm.trans hrs)
            (fun hcon => RStatus.noConfusion hcon)
      cases htr : Oneshot.try_recv c.pkt with
      | none => rw [htr] at hs; exact absurd hs (by simp)
      | some x =>
        obtain ⟨r, p⟩ := x
        rw [htr] at hs
        injection hs with hs
        injection hs with hc' hout
        subst hc'
        have hpre := oInv_try_recv hI htr
        rw [← hpd] at hpre
        exact hpre
  | canRecvOp =>
    cases hpd : c.portDropped with
    | true => rw [ostep, hpd] at hs; exact absurd hs (by simp)
    | false =>
      rw [ostep, hpd] at hs
      simp only [Bool.false_eq_true, if_false] at hs
      cases hrs : c.rstat with
      | parked hh => rw [hrs] at hs; exact absurd hs (by simp)
      | resuming => rw [hrs] at hs; exact absurd hs (by simp)
      | idle =>
        rw [hrs] at hs
        cases htr : Oneshot.can_recv c.pkt with
        | none => rw [htr] at hs; exact absurd hs (by simp)
        | some x =>
          obtain ⟨r, p⟩ := x
          rw [htr] at hs
          injection hs with hs
          injection hs with hc' hout
          subst hc'
          exact oInv_can_recv hI hpd htr
  | dropPort =>
    cases hpd : c.portDropped with
    | true => rw [ostep, hpd] at hs; exact absurd hs (by simp)
    | false =>
      rw [ostep, hpd] at hs
      simp only [Bool.false_eq_true, if_false] at hs
      cases hrs : c.rstat with
      | parked hh => rw [hrs] at hs; exact absurd hs (by simp)
      | resuming => rw [hrs] at hs; exact absurd hs (by simp)
      | idle =>
        rw [hrs] at hs
        cases hdp : Oneshot.drop_port c.pkt with
        | none => rw [hdp] at hs; exact absurd hs (by simp)
        | some p =>
          rw [hdp] at hs
          injection hs with hs
          injection hs with hc' hout
          subst hc'
          have hpre := oInv_drop_port hI hrs hdp
          rw [hrs] at hpre
          exact hpre

/-- Every reachable oneshot configuration satisfies the invariant. -/
theorem oInv_reach {T : Type} {c : OConf T} (h : OReach T c) : OInv c := by
  induction h with
  | init =>
    exact ⟨fun hd => absurd hd (by simp [oInit]),
      fun hd => absurd hd neq_EMPTY_DATA,
      fun hp => absurd hp (by simp [oInit]),
      fun hr => absurd hr (by simp [oInit])⟩
  | step hr hs ih => exact oInv_step ih hs

/-- A send gated by the shutdown flag returns false without touching the
packet. -/
theorem Strm.do_send_go_home {T : Type} (p : Strm.Packet T)
    (m : Strm.Message T) (hg : p.go_home = true) :
    Strm.do_send p m = some (false, p, Strm.noEffect) := by
  simp [Strm.do_send, hg]

/-- A completing oneshot send required a never-sent upgrade slot, and on a
DISCONNECTED word it reports false. -/
theorem Oneshot.send_inv {T : Type} {p p' : Oneshot.Packet T} {t : T}
    {r0 b : Bool} {eff : Oneshot.Effect}
    (hds : Oneshot.send p t r0 = some (b, p', eff)) :
    p.upgrade = Oneshot.MyUpgrade.NothingSent ∧
    (p.state = Oneshot.DISCONNECTED → b = false) := by
  obtain ⟨s, d, u⟩ := p
  simp only [Oneshot.Packet.state, Oneshot.Packet.data,
    Oneshot.Packet.upgrade] at hds ⊢
  cases u with
  | SendUsed => exact absurd hds (by simp [Oneshot.send])
  | GoUp up => exact absurd hds (by simp [Oneshot.send])
  | NothingSent =>
  refine ⟨rfl, ?_⟩
  intro hsd
  subst hsd
  cases d with
  | some v => exact absurd hds (by simp [Oneshot.send])
  | none =>
    simp only [Oneshot.send, Option.isSome_none, Bool.false_eq_true,
      if_false, if_true] at hds
    injection hds with hds
    injection hds with hb hds
    exact hb.symm

/-- Oneshot try_recv reports Empty only when the state word reads EMPTY. -/
theorem Oneshot.try_recv_ne_empty {T : Type} {p p' : Oneshot.Packet T}
    {r : Except (Oneshot.Failure T) T}
    (htr : Oneshot.try_recv p = some (r, p'))
    (hne : p.state ≠ Oneshot.EMPTY) :
    r ≠ Except.error Oneshot.Failure.Empty := by
  simp only [Oneshot.try_recv] at htr
  split at htr
  · exact absurd (by assumption) hne
  · split at htr
    · cases hd : p.data with
      | none => rw [hd] at htr; exact absurd htr (by simp)
      | some v =>
        rw [hd] at htr
        injection htr with htr
        injection htr with hr hp
        rw [← hr]
        simp
    · split at htr
      · cases hd : p.data with
        | some v =>
          rw [hd] at htr
          injection htr with htr
          injection htr with hr hp
          rw [← hr]
          simp
        | none =>
          rw [hd] at htr
          cases hu : p.upgrade with
          | GoUp up =>
            rw [hu] at htr
            injection htr with htr
            injection htr with hr hp
            rw [← hr]
            simp
          | NothingSent =>
            rw [hu] at htr
            injection htr with htr
            injection htr with hr hp
            rw [← hr]
            simp
          | SendUsed =>
            rw [hu] at htr
            injection htr with htr
            injection htr with hr hp
            rw [← hr]
            simp
      · exact absurd htr (by simp)

/-- The immediate-return path of the oneshot recv never reports Empty. -/
theorem Oneshot.recvStep_ret_ne_empty {T : Type} {p p' : Oneshot.Packet T}
    {h : Nat} {r : Except (Oneshot.Failure T) T}
    (he : Oneshot.recvStep p h = some (Oneshot.RecvOutcome.ret r p')) :
    r ≠ Except.error Oneshot.Failure.Empty := by
  have hinv := Oneshot.recvStep_ret_inv he
  have hne : p.state ≠ Oneshot.EMPTY := by
    intro hse
    simp only [Oneshot.recvStep, if_pos hse] at he
    exact absurd he (by simp)
  exact Oneshot.try_recv_ne_empty hinv hne

/-- From an invariant-satisfying configuration whose sender is live,
do_send never hits an assertion. -/
theorem Strm.do_send_ne_none {T : Type} {c : SConf T}
    (hI : SInv c) (hcd : c.chanDropped = false) (m : Strm.Message T) :
    Strm.do_send c.pkt m ≠ none := by
  have hD := Strm.DISC_lt
  obtain ⟨pkt, rs, cd, pd⟩ := c
  obtain ⟨qu, cn, st, tw, gh⟩ := pkt
  simp only [SConf.chanDropped] at hcd
  subst hcd
  obtain ⟨h1, h2, h3, h4, h5, h6, h7⟩ := hI
  simp only [SConf.pkt, SConf.portDropped, Strm.Packet.cnt,
    Strm.Packet.go_home, Strm.Packet.steals, Strm.Packet.queue,
    Strm.Packet.to_wake] at h1 h2 h3 h4 h6 h7 ⊢
  cases gh with
  | true => simp [Strm.do_send]
  | false =>
    have hpd : pd = false := by
      cases pd with
      | false => rfl
      | true => exact absurd (h3 rfl) (by simp)
    subst hpd
    cases rs with
    | idle =>
      obtain ⟨htw, hco⟩ := h7
      subst htw
      rcases hco with hcn | hcn
      · exact absurd (h2 hcn) (by simp)
      · intro heq
        simp only [Strm.do_send, Bool.false_eq_true, if_false] at heq
        rw [if_neg (by omega), if_neg (by omega), if_neg (by omega),
            if_pos (by omega)] at heq
        exact absurd heq (by simp)
    | parked hh =>
      obtain ⟨htw, hcn, hqu, hst⟩ := h7
      subst htw; subst hcn; subst hqu; subst hst
      intro heq
      simp only [Strm.do_send, Bool.false_eq_true, if_false, if_pos] at heq
      exact absurd heq (by simp)
    | resuming =>
      obtain ⟨htw, hco⟩ := h7
      subst htw
      rcases hco with hcn | ⟨hcn, hlen⟩
      · exact absurd (h2 hcn) (by simp)
      · intro heq
        simp only [Strm.do_send, Bool.false_eq_true, if_false] at heq
        rw [if_neg (by omega), if_neg (by omega), if_neg (by omega),
            if_pos (by omega)] at heq
        exact absurd heq (by simp)

/-- From an invariant-satisfying configuration whose sender is live,
drop_chan never hits an assertion. -/
theorem Strm.drop_chan_ne_none {T : Type} {c : SConf T}
    (hI : SInv c) (hcd : c.chanDropped = false) :
    Strm.drop_chan c.pkt ≠ none := by
  have hD := Strm.DISC_lt
  obtain ⟨pkt, rs, cd, pd⟩ := c
  obtain ⟨qu, cn, st, tw, gh⟩ := pkt
  simp only [SConf.chanDropped] at hcd
  subst hcd
  obtain ⟨h1, h2, h3, h4, h5, h6, h7⟩ := hI
  simp only [SConf.pkt, SConf.portDropped, Strm.Packet.cnt,
    Strm.Packet.go_home, Strm.Packet.steals, Strm.Packet.queue,
    Strm.Packet.to_wake] at h1 h2 h3 h4 h6 h7 ⊢
  cases rs with
  | idle =>
    obtain ⟨htw, hco⟩ := h7
    subst htw
    rcases hco with hcn | hcn
    · subst hcn
      intro heq
      simp only [Strm.drop_chan] at heq
      rw [if_neg (by omega)] at heq
      simp at heq
    · intro heq
      simp only [Strm.drop_chan] at heq
      rw [if_neg (by omega), if_neg (by omega), if_pos (by omega)] at heq
      exact absurd heq (by simp)
  | parked hh =>
    obtain ⟨htw, hcn, hqu, hst⟩ := h7
    subst htw; subst hcn; subst hqu; subst hst
    intro heq
    simp only [Strm.drop_chan, if_pos] at heq
    exact absurd heq (by simp)
  | resuming =>
    obtain ⟨htw, hco⟩ := h7
    subst htw
    rcases hco with hcn | ⟨hcn, hlen⟩
    · subst hcn
      intro heq
      simp only [Strm.drop_chan] at heq
      rw [if_neg (by omega)] at heq
      simp at heq
    · intro heq
      simp only [Strm.drop_chan] at heq
      rw [if_neg (by omega), if_neg (by omega), if_pos (by omega)] at heq
      exact absurd heq (by simp)

/-- C4 counterexample: running drop_port and then a send on a fresh oneshot
packet is a legal sequence (the sender is still live), the send returns
false, yet it leaves the state word at DATA — a subsequent load of the
coordinating word does not observe DISCONNECTED, contradicting the claim
that after any drop every load of the word reads DISCONNECTED. -/
theorem C4_counterexample :
    oRun [OOp.dropPort, OOp.sendOp 9 false] (oInit Nat) =
      some { pkt := { state := Oneshot.DATA, data := none,
                      upgrade := Oneshot.MyUpgrade.SendUsed },
             rstat := RStatus.idle, chanDropped := false,
             portDropped := true } ∧
    Oneshot.DATA ≠ Oneshot.DISCONNECTED := ⟨rfl, by decide⟩

/-- C4 (amended): once any drop_chan or drop_port has run, every subsequent
send that completes returns false on both flavors, and the stream counter
observes DISCONNECTED in every reachable configuration; the oneshot state
word observes DISCONNECTED as well, except that a send performed after the
port's drop leaves the word at DATA with the value already reclaimed. -/
theorem C4_terminal_stickiness {T : Type} (c : SConf T) (d : OConf T)
    (hsr : SReach T c) (hor : OReach T d) :
    ((c.chanDropped = true ∨ c.portDropped = true) →
      c.pkt.cnt = Strm.DISCONNECTED) ∧
    (∀ (t : T) (c' : SConf T) (out : SOut T),
      sstep c (SOp.sendOp t) = some (c', out) →
      (c.chanDropped = true ∨ c.portDropped = true) →
      out.sentRes = some false) ∧
    ((d.chanDropped = true ∨ d.portDropped = true) →
      (d.pkt.state = Oneshot.DISCONNECTED ∨
       (d.pkt.state = Oneshot.DATA ∧ d.pkt.data = none ∧
        d.portDropped = true))) ∧
    (∀ (t : T) (r0 : Bool) (d' : OConf T) (out : OOut T),
      ostep d (OOp.sendOp t r0) = some (d', out) →
      (d.chanDropped = true ∨ d.portDropped = true) →
      out.sentRes = some false) := by
  refine ⟨(sInv_reach hsr).1, ?_, (oInv_reach hor).1, ?_⟩
  · intro t c' out hs hd
    cases hcd : c.chanDropped with
    | true => rw [sstep, hcd] at hs; exact absurd hs (by simp)
    | false =>
      have hpd : c.portDropped = true := by
        rcases hd with hd | hd
        · exact absurd (hcd.symm.trans hd) (by simp)
        · exact hd
      have hgh := (sInv_reach hsr).2.2.1 hpd
      rw [sstep, hcd] at hs
      simp only [Bool.false_eq_true, if_false] at hs
      rw [show Strm.send c.pkt t = some (false, c.pkt, Strm.noEffect) from
        Strm.do_send_go_home c.pkt (Strm.Message.Data t) hgh] at hs
      injection hs with hs
      injection hs with hc' hout
      rw [← hout]
  · intro t r0 d' out hs hd
    cases hcd : d.chanDropped with
    | true => rw [ostep, hcd] at hs; exact absurd hs (by simp)
    | false =>
      rw [ostep, hcd] at hs
      simp only [Bool.false_eq_true, if_false] at hs
      cases hds : Oneshot.send d.pkt t r0 with
      | none => rw [hds] at hs; exact absurd hs (by simp)
      | some x =>
        obtain ⟨b, p, eff⟩ := x
        rw [hds] at hs
        injection hs with hs
        injection hs with hc' hout
        obtain ⟨hup, hdisc⟩ := Oneshot.send_inv hds
        have hI := oInv_reach hor
        have hstate : d.pkt.state = Oneshot.DISCONNECTED := by
          rcases hI.1 hd with hx | hx
          · exact hx
          · exact absurd hup (hI.2.1 hx.1)
        have hb := hdisc hstate
        subst hb
        rw [← hout]

/-- C4 witness: the amended theorem applied at the configurations reached
by drop_port on each flavor, and at a subsequent stream send. -/
theorem C4_witness :
    sConfD.pkt.cnt = Strm.DISCONNECTED ∧
    (oConfD.pkt.state = Oneshot.DISCONNECTED ∨
     (oConfD.pkt.state = Oneshot.DATA ∧ oConfD.pkt.data = none ∧
      oConfD.portDropped = true)) ∧
    (({ sentRes := some false, recvd := none } : SOut Nat).sentRes =
      some false) := by
  have hs : SReach Nat sConfD :=
    @SReach.step Nat (sInit Nat) sConfD SOp.dropPort (noSOut Nat)
      SReach.init rfl
  have ho : OReach Nat oConfD :=
    @OReach.step Nat (oInit Nat) oConfD OOp.dropPort (noOOut Nat)
      OReach.init rfl
  refine ⟨(C4_terminal_stickiness sConfD oConfD hs ho).1 (Or.inr rfl),
    (C4_terminal_stickiness sConfD oConfD hs ho).2.2.1 (Or.inr rfl),
    (C4_terminal_stickiness sConfD oConfD hs ho).2.1 7 sConfD
      { sentRes := some false, recvd := none } rfl (Or.inr rfl)⟩

/-- C5: the blocking recv never returns the Empty failure on either flavor:
the oneshot recv front half returns Empty in no state; the oneshot post-wake
tail never does in any reachable configuration; and the stream recv front
half and post-wake tail never do in any reachable configuration.  Empty is
surfaced only by the non-blocking try_recv. -/
theorem C5_recv_never_empty {T : Type} :
    (∀ (p : Oneshot.Packet T) (h : Nat) (r : Except (Oneshot.Failure T) T)
       (p' : Oneshot.Packet T),
       Oneshot.recvStep p h = some (Oneshot.RecvOutcome.ret r p') →
       r ≠ Except.error Oneshot.Failure.Empty) ∧
    (∀ (c c' : OConf T) (out : OOut T), OReach T c →
       ostep c OOp.recvResume = some (c', out) →
       out.recvd ≠ some (Except.error Oneshot.Failure.Empty)) ∧
    (∀ (c c' : SConf T) (h : Nat) (out : SOut T), SReach T c →
       sstep c (SOp.recvStart h) = some (c', out) →
       out.recvd ≠ some (Except.error Strm.Failure.Empty)) ∧
    (∀ (c c' : SConf T) (out : SOut T), SReach T c →
       sstep c SOp.recvResume = some (c', out) →
       out.recvd ≠ some (Except.error Strm.Failure.Empty)) := by
  refine ⟨?_, ?_, ?_, ?_⟩
  · intro p h r p' he
    exact Oneshot.recvStep_ret_ne_empty he
  · intro c c' out hor hs
    have hI := oInv_reach hor
    cases hrs : c.rstat with
    | idle => rw [ostep, hrs] at hs; exact absurd hs (by simp)
    | parked hh => rw [ostep, hrs] at hs; exact absurd hs (by simp)
    | resuming =>
      rw [ostep, hrs] at hs
      have hne := hI.2.2.2 hrs
      cases htr : Oneshot.try_recv c.pkt with
      | none => rw [htr] at hs; exact absurd hs (by simp)
      | some x =>
        obtain ⟨r, p⟩ := x
        rw [htr] at hs
        injection hs with hs
        injection hs with hc' hout
        rw [← hout]
        intro heq
        injection heq with heq
        exact Oneshot.try_recv_ne_empty htr hne heq
  · intro c c' h out hsr hs
    have hI := sInv_reach hsr
    obtain ⟨pkt, rs, cd, pd⟩ := c
    cases pd with
    | true => exact absurd hs (by simp [sstep])
    | false =>
    cases rs with
    | parked hh => exact absurd hs (by simp [sstep])
    | resuming => exact absurd hs (by simp [sstep])
    | idle =>
    obtain ⟨qu, cn, st, tw, gh⟩ := pkt
    obtain ⟨h1, h2, h3, h4, h5, h6, h7⟩ := hI
    simp only [SConf.pkt, Strm.Packet.cnt, Strm.Packet.queue,
      Strm.Packet.steals, Strm.Packet.to_wake] at h2 h7
    obtain ⟨htw, hco⟩ := h7
    subst htw
    simp only [sstep, Bool.false_eq_true, if_false] at hs
    cases qu with
    | cons m rest =>
      have e : Strm.recvStep (⟨m :: rest, cn, st, none, gh⟩ :
          Strm.Packet T) h =
          some (Strm.RecvOutcome.ret (Strm.try_recv
            (⟨m :: rest, cn, st, none, gh⟩ : Strm.Packet T)).1
            (⟨rest, cn, st + 1, none, gh⟩ : Strm.Packet T)) := by
        cases m <;> simp [Strm.recvStep, Strm.try_recv, Strm.pop]
      rw [e] at hs
      injection hs with hs
      injection hs with hc' hout
      rw [← hout]
      cases m <;> simp [Strm.try_recv, Strm.pop]
    | nil =>
      by_cases hc : cn = Strm.DISCONNECTED
      · subst hc
        have e : Strm.recvStep
            (⟨[], Strm.DISCONNECTED, st, none, gh⟩ : Strm.Packet T) h =
            some (Strm.RecvOutcome.ret
              (Except.error Strm.Failure.Disconnected)
              (⟨[], Strm.DISCONNECTED, st, none, gh⟩ : Strm.Packet T)) := by
          simp [Strm.recvStep, Strm.try_recv, Strm.pop]
        rw [e] at hs
        injection hs with hs
        injection hs with hc' hout
        rw [← hout]
        simp
      · have hEmpty : Strm.try_recv (⟨[], cn, st, none, gh⟩ :
            Strm.Packet T) =
            (Except.error Strm.Failure.Empty, ⟨[], cn, st, none, gh⟩) := by
          simp [Strm.try_recv, Strm.pop, hc]
        have hcnst : cn = st := by
          rcases hco with hco | hco
          · exact absurd hco hc
          · simpa using hco
        have e : Strm.recvStep (⟨[], cn, st, none, gh⟩ : Strm.Packet T) h =
            some (Strm.RecvOutcome.parked
              (⟨[], cn - (1 + st), 0, some h, gh⟩ : Strm.Packet T)) := by
          simp only [Strm.recvStep, hEmpty]
          simp only [Strm.Packet.to_wake, Option.isSome_none,
            Bool.false_eq_true, if_false]
          rw [if_neg (by simpa using hc), if_pos (by simp; omega)]
        rw [e] at hs
        injection hs with hs
        injection hs with hc' hout
        rw [← hout]
        simp [noSOut]
  · intro c c' out hsr hs
    have hI := sInv_reach hsr
    obtain ⟨pkt, rs, cd, pd⟩ := c
    cases rs with
    | idle => exact absurd hs (by simp [sstep])
    | parked hh => exact absurd hs (by simp [sstep])
    | resuming =>
    obtain ⟨qu, cn, st, tw, gh⟩ := pkt
    obtain ⟨h1, h2, h3, h4, h5, h6, h7⟩ := hI
    simp only [SConf.pkt, Strm.Packet.cnt, Strm.Packet.queue,
      Strm.Packet.steals, Strm.Packet.to_wake] at h7
    obtain ⟨htw, hco⟩ := h7
    subst htw
    simp only [sstep] at hs
    cases qu with
    | cons m rest =>
      have e : Strm.recvCancelFinish (⟨m :: rest, cn, st, none, gh⟩ :
          Strm.Packet T) =
          ((Strm.try_recv (⟨m :: rest, cn, st, none, gh⟩ :
              Strm.Packet T)).1,
           ⟨rest, cn, st + 1 - 1, none, gh⟩) := by
        cases m <;>
          simp [Strm.recvCancelFinish, Strm.try_recv, Strm.pop]
      rw [e] at hs
      injection hs with hs
      injection hs with hc' hout
      rw [← hout]
      cases m <;> simp [Strm.try_recv, Strm.pop]
    | nil =>
      have hcd : cn = Strm.DISCONNECTED := by
        rcases hco with hco | ⟨hco, hlen⟩
        · exact hco
        · simp at hlen
      subst hcd
      have e : Strm.recvCancelFinish
          (⟨[], Strm.DISCONNECTED, st, none, gh⟩ : Strm.Packet T) =
          (Except.error Strm.Failure.Disconnected,
           ⟨[], Strm.DISCONNECTED, st, none, gh⟩) := by
        simp [Strm.recvCancelFinish, Strm.try_recv, Strm.pop]
      rw [e] at hs
      injection hs with hs
      injection hs with hc' hout
      rw [← hout]
      simp

/-- C5 witness: the theorem applied to the oneshot recv on a disconnected
packet (which returns Disconnected, not Empty) and to the stream recv on a
reachable configuration holding one message (which returns the message). -/
theorem C5_witness :
    (Except.error Oneshot.Failure.Disconnected :
      Except (Oneshot.Failure Nat) Nat) ≠
      Except.error Oneshot.Failure.Empty ∧
    (({ sentRes := none, recvd := some (Except.ok 5) } :
      SOut Nat).recvd ≠ some (Except.error Strm.Failure.Empty)) := by
  have hr : SReach Nat sConf1 :=
    @SReach.step Nat (sInit Nat) sConf1 (SOp.sendOp 5)
      { sentRes := some true, recvd := none } SReach.init rfl
  refine ⟨?_, ?_⟩
  · exact (@C5_recv_never_empty Nat).1 pC10 3
      (Except.error Oneshot.Failure.Disconnected)
      { pC10 with upgrade := Oneshot.MyUpgrade.SendUsed } rfl
  · exact (@C5_recv_never_empty Nat).2.2.1 sConf1
      { pkt := { queue := [], cnt := 1, steals := 1, to_wake := none,
                 go_home := false },
        rstat := RStatus.idle, chanDropped := false, portDropped := false }
      3 { sentRes := none, recvd := some (Except.ok 5) } hr rfl

/-- C9: in every reachable stream configuration the counter is either
DISCONNECTED or at least -1; a recv step that actually parks finds the
previous counter value equal to the folded-in steals, so the value after
the subtract is exactly -1; and from any reachable configuration with a
live sender, neither send nor drop_chan can fault (in particular their
assert n >= 0 never fails). -/
theorem C9_counter_invariant {T : Type} (c : SConf T) (hr : SReach T c) :
    (c.pkt.cnt = Strm.DISCONNECTED ∨ -1 ≤ c.pkt.cnt) ∧
    (∀ (h : Nat) (c' : SConf T) (out : SOut T),
      sstep c (SOp.recvStart h) = some (c', out) →
      (∃ hh, c'.rstat = RStatus.parked hh) →
      c.pkt.cnt = c.pkt.steals ∧ c'.pkt.cnt = -1) ∧
    (c.chanDropped = false →
      (∀ t : T, sstep c (SOp.sendOp t) ≠ none) ∧
      sstep c SOp.dropChan ≠ none) := by
  have hI := sInv_reach hr
  refine ⟨?_, ?_, ?_⟩
  · obtain ⟨h1, h2, h3, h4, h5, h6, h7⟩ := hI
    cases hrs : c.rstat with
    | idle =>
      rw [hrs] at h7
      rcases h7.2 with hco | hco
      · exact Or.inl hco
      · refine Or.inr ?_
        rw [hco]
        have : (0 : Int) ≤ c.pkt.queue.length := by positivity
        omega
    | parked hh =>
      rw [hrs] at h7
      rw [h7.2.1]
      exact Or.inr (by omega)
    | resuming =>
      rw [hrs] at h7
      rcases h7.2 with hco | ⟨hco, hlen⟩
      · exact Or.inl hco
      · refine Or.inr ?_
        rw [hco]
        have : (1 : Int) ≤ c.pkt.queue.length := by exact_mod_cast hlen
        omega
  · intro h c' out hs hpk
    obtain ⟨hh, hparked⟩ := hpk
    obtain ⟨pkt, rs, cd, pd⟩ := c
    cases pd with
    | true => exact absurd hs (by simp [sstep])
    | false =>
    cases rs with
    | parked hh2 => exact absurd hs (by simp [sstep])
    | resuming => exact absurd hs (by simp [sstep])
    | idle =>
    obtain ⟨qu, cn, st, tw, gh⟩ := pkt
    obtain ⟨h1, h2, h3, h4, h5, h6, h7⟩ := hI
    simp only [SConf.pkt, Strm.Packet.cnt, Strm.Packet.queue,
      Strm.Packet.steals, Strm.Packet.to_wake] at h2 h7
    obtain ⟨htw, hco⟩ := h7
    subst htw
    simp only [sstep, Bool.false_eq_true, if_false] at hs
    cases qu with
    | cons m rest =>
      have e : Strm.recvStep (⟨m :: rest, cn, st, none, gh⟩ :
          Strm.Packet T) h =
          some (Strm.RecvOutcome.ret (Strm.try_recv
            (⟨m :: rest, cn, st, none, gh⟩ : Strm.Packet T)).1
            (⟨rest, cn, st + 1, none, gh⟩ : Strm.Packet T)) := by
        cases m <;> simp [Strm.recvStep, Strm.try_recv, Strm.pop]
      rw [e] at hs
      injection hs with hs
      injection hs with hc' hout
      rw [← hc'] at hparked
      exact absurd hparked (by simp)
    | nil =>
      by_cases hc : cn = Strm.DISCONNECTED
      · subst hc
        have e : Strm.recvStep
            (⟨[], Strm.DISCONNECTED, st, none, gh⟩ : Strm.Packet T) h =
            some (Strm.RecvOutcome.ret
              (Except.error Strm.Failure.Disconnected)
              (⟨[], Strm.DISCONNECTED, st, none, gh⟩ : Strm.Packet T)) := by
          simp [Strm.recvStep, Strm.try_recv, Strm.pop]
        rw [e] at hs
        injection hs with hs
        injection hs with hc' hout
        rw [← hc'] at hparked
        exact absurd hparked (by simp)
      · have hEmpty : Strm.try_recv (⟨[], cn, st, none, gh⟩ :
            Strm.Packet T) =
            (Except.error Strm.Failure.Empty, ⟨[], cn, st, none, gh⟩) := by
          simp [Strm.try_recv, Strm.pop, hc]
        have hcnst : cn = st := by
          rcases hco with hco | hco
          · exact absurd hco hc
          · simpa using hco
        have e : Strm.recvStep (⟨[], cn, st, none, gh⟩ : Strm.Packet T) h =
            some (Strm.RecvOutcome.parked
              (⟨[], cn - (1 + st), 0, some h, gh⟩ : Strm.Packet T)) := by
          simp only [Strm.recvStep, hEmpty]
          simp only [Strm.Packet.to_wake, Option.isSome_none,
            Bool.false_eq_true, if_false]
          rw [if_neg (by simpa using hc), if_pos (by simp; omega)]
        rw [e] at hs
        injection hs with hs
        injection hs with hc' hout
        rw [← hc']
        refine ⟨hcnst, ?_⟩
        simp only [SConf.pkt, Strm.Packet.cnt]
        omega
  · intro hcd
    constructor
    · intro t heq
      rw [sstep, hcd] at heq
      simp only [Bool.false_eq_true, if_false] at heq
      cases hds : Strm.send c.pkt t with
      | none => exact Strm.do_send_ne_none hI hcd (Strm.Message.Data t) hds
      | some x =>
        obtain ⟨b, p, eff⟩ := x
        rw [hds] at heq
        exact absurd heq (by simp)
    · intro heq
      rw [sstep, hcd] at heq
      simp only [Bool.false_eq_true, if_false] at heq
      cases hdc : Strm.drop_chan c.pkt with
      | none => exact Strm.drop_chan_ne_none hI hcd hdc
      | some x =>
        obtain ⟨p, eff⟩ := x
        rw [hdc] at heq
        exact absurd heq (by simp)

/-- C9 witness: the theorem applied at the reachable configuration sConf1
with one message in flight. -/
theorem C9_witness :
    (sConf1.pkt.cnt = Strm.DISCONNECTED ∨ -1 ≤ sConf1.pkt.cnt) ∧
    sstep sConf1 SOp.dropChan ≠ none := by
  have hr : SReach Nat sConf1 :=
    @SReach.step Nat (sInit Nat) sConf1 (SOp.sendOp 5)
      { sentRes := some true, recvd := none } SReach.init rfl
  exact ⟨(C9_counter_invariant sConf1 hr).1,
    ((C9_counter_invariant sConf1 hr).2.2 rfl).2⟩

end Chan
